import Mathlib

/-!
# Canadian Cheese Directory (CST8333, assignment 4): record codec and record store

A shallow embedding of `src/assignments/assignment-4/cheesedir.go`.

* Go strings are Lean `String`s (sequences of Unicode code points).
* Go's `int` is the 64-bit one: a value of type `Int` inside `isInt`.
* A `float32` is its IEEE-754 binary32 bit pattern.  The two float operations the
  program takes from Go's standard library (`strconv.ParseFloat(s, 32)` followed by the
  conversion `float32(v)`, and `fmt.Sprintf("%.2f", x)`) are parameters of the
  development, bundled in `FloatLib`.
* A slice is a `List`; an index out of range (a Go panic) is `none`.
* Console input is explicit: `stdin` is the list of the texts that the successive line
  scanners of the prompts return, and the inputs of a selection loop are the outcomes of
  its successive `fmt.Scanf("%d", ...)` calls.
* The end of the process through `log.Fatal` and a run-time panic are the two values of
  `Abort` where a function can meet both; elsewhere a panic is `none`.
* The CSV reader is `ReadAll` on the lines of the file: blank lines are skipped and
  records of unequal widths are an error.
* The SQLite table `cheeses` is a list of rows with their `id` and their columns as the
  engine holds them (a NaN bound to a `REAL` column is kept as `NULL`, and `-0.0` as
  `0`); the SQL statements of the program are functions on it, and a row that `rows.Scan`
  cannot read ends the process.
* The loop of `main` is a step function on the pair of the store and the mirror; each
  turn takes what it reads from outside the program as a `StepInput`.
-/

namespace CheeseDir

/-! ## Go standard library: the functions the program calls -/

/-- Go `unicode.IsSpace`: the code points with the Unicode White_Space property. -/
def isSpace (c : Char) : Bool :=
  let n := c.toNat
  (0x09 ≤ n && n ≤ 0x0D) || n == 0x20 || n == 0x85 || n == 0xA0 || n == 0x1680 ||
  (0x2000 ≤ n && n ≤ 0x200A) || n == 0x2028 || n == 0x2029 || n == 0x202F ||
  n == 0x205F || n == 0x3000

/-- Go `strings.TrimSpace`: the string without its leading and trailing white space. -/
def TrimSpace (s : String) : String :=
  String.mk ((s.data.dropWhile isSpace).reverse.dropWhile isSpace).reverse

/-- The accumulating loop of Go `strconv.ParseUint(s, 10, 64)`: each byte must be a decimal
digit, and the value must stay below `2^64`; `none` is a non-nil error. -/
def parseUintLoop : Nat → List Char → Option Nat
  | n, [] => some n
  | n, c :: cs =>
    if c.isDigit then
      let n1 := n * 10 + (c.toNat - 48)
      if n1 < 2 ^ 64 then parseUintLoop n1 cs else none
    else none

/-- Go `strconv.ParseUint(s, 10, 64)`; `none` is a non-nil error (syntax or range). -/
def ParseUint (s : List Char) : Option Nat :=
  match s with
  | [] => none
  | _ => parseUintLoop 0 s

/-- The range check of Go `strconv.ParseInt(s, 10, 64)` on the unsigned value. -/
def signedInRange (neg : Bool) (un : Nat) : Option Int :=
  if !neg && un ≥ 2 ^ 63 then none
  else if neg && un > 2 ^ 63 then none
  else some (if neg then -(un : Int) else (un : Int))

/-- Go `strconv.ParseInt(s, 10, 64)`; `none` is a non-nil error (syntax or range). -/
def ParseInt (s : String) : Option Int :=
  match s.data with
  | [] => none
  | '+' :: rest => (ParseUint rest).bind (signedInRange false)
  | '-' :: rest => (ParseUint rest).bind (signedInRange true)
  | cs => (ParseUint cs).bind (signedInRange false)

/-- Go `strconv.ParseBool`; `none` is a non-nil error. -/
def ParseBool (str : String) : Option Bool :=
  if str = "1" ∨ str = "t" ∨ str = "T" ∨ str = "true" ∨ str = "TRUE" ∨ str = "True" then
    some true
  else if str = "0" ∨ str = "f" ∨ str = "F" ∨ str = "false" ∨ str = "FALSE" ∨ str = "False" then
    some false
  else none

/-- The digit loop of Go `fmt` for base 10, with the digits pushed in front of `acc`;
`fuel` bounds the number of digits. -/
def fmtUintCore : Nat → Nat → List Char → List Char
  | 0, _, acc => acc
  | fuel + 1, u, acc =>
    if u ≥ 10 then fmtUintCore fuel (u / 10) (Nat.digitChar (u % 10) :: acc)
    else Nat.digitChar u :: acc

/-- Decimal digits of an unsigned value. -/
def fmtUint (u : Nat) : List Char := fmtUintCore (u + 1) u []

/-- Go `fmt.Sprintf("%d", n)` for an `int`. -/
def fmtInt (n : Int) : String :=
  if n < 0 then String.mk ('-' :: fmtUint n.natAbs) else String.mk (fmtUint n.natAbs)

/-- Go `fmt.Sprintf("%t", b)`. -/
def fmtBool (b : Bool) : String := if b then "true" else "false"

/-- The range of Go's 64-bit `int`. -/
def isInt (n : Int) : Prop := -(2 : Int) ^ 63 ≤ n ∧ n < (2 : Int) ^ 63

instance (n : Int) : Decidable (isInt n) := by unfold isInt; infer_instance

/-- A Go `float32`, as its IEEE-754 binary32 bit pattern. -/
structure Float32 where
  bits : Nat
  deriving DecidableEq, Repr

/-- The `float32` value `0.0`. -/
def Float32.zero : Float32 := ⟨0⟩

/-- The `float32` value `-0.0`: the sign bit alone. -/
def Float32.negZero : Float32 := ⟨0x80000000⟩

/-- Test for a `float32` NaN: the 8 exponent bits are all ones and the 23 mantissa bits
are not all zero. -/
def Float32.isNaN (x : Float32) : Bool :=
  (x.bits / 2 ^ 23) % 256 == 255 && x.bits % 2 ^ 23 != 0

/-- The float operations of Go's standard library that the program calls.
`ParseFloat32 s` is `float32(v)` when `strconv.ParseFloat(s, 32)` returns `v` with a nil
error, and `none` when the error is not nil; `FormatFloat2 x` is `fmt.Sprintf("%.2f", x)`. -/
structure FloatLib where
  ParseFloat32 : String → Option Float32
  FormatFloat2 : Float32 → String

/-! ## Data model -/

/-- The Go struct `Record`. -/
structure Record where
  CheeseId : Int
  CheeseName : String
  ManufacturerName : String
  ManufacturerProvCode : String
  ManufacturingType : String
  WebSite : String
  FatContentPercent : Float32
  MoisturePercent : Float32
  Particularities : String
  Flavour : String
  Characteristics : String
  Ripening : String
  Organic : Bool
  CategoryType : String
  MilkType : String
  MilkTreatmentType : String
  RindType : String
  LastUpdateDate : String
  deriving DecidableEq, Repr

/-! ## Field normalizer and record codec -/

/-- Go `getFirstNonEmptyStringOrNA`. -/
def getFirstNonEmptyStringOrNA (first : String) (second : String) : String :=
  if TrimSpace first ≠ "" then first
  else if TrimSpace second ≠ "" then second
  else "N/A"

/-- Go `lineToRecord`.  Column `ck` is `line[k]`; an index out of range is a panic,
rendered as `none`.  A parse error of `strconv` leaves the zero value of the field. -/
def lineToRecord (fl : FloatLib) (line : List String) : Option Record :=
  match
    line.get? 0, line.get? 1, line.get? 2, line.get? 3, line.get? 4, line.get? 5,
    line.get? 6, line.get? 7, line.get? 8, line.get? 9, line.get? 10, line.get? 11,
    line.get? 12, line.get? 13, line.get? 14, line.get? 15, line.get? 16, line.get? 17,
    line.get? 18, line.get? 19, line.get? 20, line.get? 21, line.get? 22, line.get? 23,
    line.get? 24, line.get? 25, line.get? 26, line.get? 27, line.get? 28, line.get? 29
  with
  | some c0, some c1, some c2, some c3, some c4, some c5,
    some c6, some c7, some c8, some c9, some c10, some c11,
    some c12, some c13, some c14, some c15, some c16, some c17,
    some c18, some c19, some c20, some c21, some c22, some c23,
    some c24, some c25, some c26, some c27, some c28, some c29 =>
    let cheeseId := (ParseInt c0).getD 0
    let fatContentPercent := (fl.ParseFloat32 c10).getD Float32.zero
    let moisturePercent := (fl.ParseFloat32 c11).getD Float32.zero
    let organic := (ParseBool c20).getD false
    some {
      CheeseId := cheeseId
      CheeseName := getFirstNonEmptyStringOrNA c1 c2
      ManufacturerName := getFirstNonEmptyStringOrNA c3 c4
      ManufacturerProvCode := getFirstNonEmptyStringOrNA c5 "??"
      ManufacturingType := getFirstNonEmptyStringOrNA c6 c7
      WebSite := getFirstNonEmptyStringOrNA c8 c9
      FatContentPercent := fatContentPercent
      MoisturePercent := moisturePercent
      Particularities := getFirstNonEmptyStringOrNA c12 c13
      Flavour := getFirstNonEmptyStringOrNA c14 c15
      Characteristics := getFirstNonEmptyStringOrNA c16 c17
      Ripening := getFirstNonEmptyStringOrNA c18 c19
      Organic := organic
      CategoryType := getFirstNonEmptyStringOrNA c21 c22
      MilkType := getFirstNonEmptyStringOrNA c23 c24
      MilkTreatmentType := getFirstNonEmptyStringOrNA c25 c26
      RindType := getFirstNonEmptyStringOrNA c27 c28
      LastUpdateDate := c29
    }
  | _, _, _, _, _, _, _, _, _, _, _, _, _, _, _, _, _, _, _, _, _, _, _, _, _, _, _, _, _, _ => none

/-- A sample `FloatLib`, used only to evaluate the definitions on concrete inputs (the
theorems hold for an arbitrary `FloatLib`): a finite table of conversions, with the two
percentages of the golden record of `TestLoadData`, `24.2` and `47`, and their binary32
bit patterns, the two zeros and the NaN that `ParseFloat` returns for the text `NaN`.
Any text outside the table is rejected. -/
def goldenFloats : FloatLib where
  ParseFloat32 := fun s =>
    if s = "24.2" ∨ s = "24.20" then some ⟨0x41C1999A⟩
    else if s = "47" ∨ s = "47.00" then some ⟨0x423C0000⟩
    else if s = "0" ∨ s = "0.00" then some ⟨0⟩
    else if s = "-0" ∨ s = "-0.00" then some ⟨0x80000000⟩
    else if s = "NaN" then some ⟨0x7FC00000⟩
    else none
  FormatFloat2 := fun x =>
    if x.bits = 0x41C1999A then "24.20"
    else if x.bits = 0x423C0000 then "47.00"
    else if x.bits = 0x80000000 then "-0.00"
    else if x.bits = 0x7FC00000 then "NaN"
    else "0.00"

/-- A 30-column line that decodes to the golden record of `TestLoadData`. -/
def goldenLine : List String :=
  ["228", "", "Sieur de Duplessis (Le)", "", "Fromages la faim de loup", "NB", "",
   "Farmstead", "", "", "24.2", "47", "", "", "", "Sharp, lactic", "", "Uncooked", "",
   "9 Months", "0", "", "Firm Cheese", "", "Ewe", "", "Raw Milk", "", "Washed Rind",
   "2016-02-03"]

/-- A header line of 30 columns, the width of the golden line. -/
def goldenHeader : List String := List.replicate 30 "column"

/-- The golden record of `TestLoadData`. -/
def goldenRecord : Record where
  CheeseId := 228
  CheeseName := "Sieur de Duplessis (Le)"
  ManufacturerName := "Fromages la faim de loup"
  ManufacturerProvCode := "NB"
  ManufacturingType := "Farmstead"
  WebSite := "N/A"
  FatContentPercent := ⟨0x41C1999A⟩
  MoisturePercent := ⟨0x423C0000⟩
  Particularities := "N/A"
  Flavour := "Sharp, lactic"
  Characteristics := "Uncooked"
  Ripening := "9 Months"
  Organic := false
  CategoryType := "Firm Cheese"
  MilkType := "Ewe"
  MilkTreatmentType := "Raw Milk"
  RindType := "Washed Rind"
  LastUpdateDate := "2016-02-03"

/-! ## Record store -/

/-- The loop of Go `loadData`: `i` is the loop index, the list holds `lines[i:]`, and
`records` is the slice built so far. -/
def loadLoop (fl : FloatLib) (numRecords : Int) :
    Nat → List (List String) → List Record → Option (List Record)
  | _, [], records => some records
  | i, line :: rest, records =>
    if (i : Int) < numRecords then
      match lineToRecord fl line with
      | none => none
      | some r => loadLoop fl numRecords (i + 1) rest (records ++ [r])
    else some records

/-- Go `loadData`, as a function of the lines read from the CSV file.  Dropping the header
of an empty list of lines (`lines[1:]`) is a panic, rendered as `none`. -/
def loadData (fl : FloatLib) (lines : List (List String)) (numRecords : Int) :
    Option (List Record) :=
  match lines with
  | [] => none
  | _ :: lines => loadLoop fl numRecords 0 lines []

/-- Go `deleteRecordFromSlice`: `append(slice[:id], slice[id+1:]...)`; a slice bound out
of range is a panic, rendered as `none`. -/
def deleteRecordFromSlice (slice : List Record) (id : Int) : Option (List Record) :=
  if 0 ≤ id ∧ id + 1 ≤ (slice.length : Int) then
    some (slice.take id.toNat ++ slice.drop (id.toNat + 1))
  else none

/-- Go `deleteRecord` after its record-selection loop has accepted the index `id`. -/
def deleteRecord (records : List Record) (id : Int) : Option (List Record) :=
  deleteRecordFromSlice records id

/-- Go `readNewOrKeepDefaultString`: reads one line of the console input `stdin` (the
scanner yields the empty text at the end of the input) and returns the default `def_`
when the line is empty; the second component is the input left to read. -/
def readNewOrKeepDefaultString (def_ : String) (stdin : List String) :
    String × List String :=
  let s := stdin.headD ""
  (if s = "" then def_ else s, stdin.tail)

/-- Go `editRecord` after its record-selection loop has accepted the index `id`: the
eighteen prompts are answered by the console input `stdin`, and the result is the store
with the input left to read.  `records[id]` out of range is a panic, rendered as `none`. -/
def editRecord (fl : FloatLib) (records : List Record) (id : Int) (stdin : List String) :
    Option (List Record × List String) :=
  if id < 0 then none
  else
    match records.get? id.toNat with
    | none => none
    | some r =>
      let (s0, in1) := readNewOrKeepDefaultString (fmtInt r.CheeseId) stdin
      let (s1, in2) := readNewOrKeepDefaultString r.CheeseName in1
      let (s2, in3) := readNewOrKeepDefaultString r.ManufacturerName in2
      let (s3, in4) := readNewOrKeepDefaultString r.ManufacturerProvCode in3
      let (s4, in5) := readNewOrKeepDefaultString r.ManufacturingType in4
      let (s5, in6) := readNewOrKeepDefaultString r.WebSite in5
      let (s6, in7) := readNewOrKeepDefaultString (fl.FormatFloat2 r.FatContentPercent) in6
      let (s7, in8) := readNewOrKeepDefaultString (fl.FormatFloat2 r.MoisturePercent) in7
      let (s8, in9) := readNewOrKeepDefaultString r.Particularities in8
      let (s9, in10) := readNewOrKeepDefaultString r.Flavour in9
      let (s10, in11) := readNewOrKeepDefaultString r.Characteristics in10
      let (s11, in12) := readNewOrKeepDefaultString r.Ripening in11
      let (s12, in13) := readNewOrKeepDefaultString (fmtBool r.Organic) in12
      let (s13, in14) := readNewOrKeepDefaultString r.CategoryType in13
      let (s14, in15) := readNewOrKeepDefaultString r.MilkType in14
      let (s15, in16) := readNewOrKeepDefaultString r.MilkTreatmentType in15
      let (s16, in17) := readNewOrKeepDefaultString r.RindType in16
      let (s17, in18) := readNewOrKeepDefaultString r.LastUpdateDate in17
      let cheeseId := (ParseInt s0).getD 0
      let fatContentPercent := (fl.ParseFloat32 s6).getD Float32.zero
      let moisturePercent := (fl.ParseFloat32 s7).getD Float32.zero
      let organic := (ParseBool s12).getD false
      some (records.set id.toNat {
        CheeseId := cheeseId
        CheeseName := s1
        ManufacturerName := s2
        ManufacturerProvCode := s3
        ManufacturingType := s4
        WebSite := s5
        FatContentPercent := fatContentPercent
        MoisturePercent := moisturePercent
        Particularities := s8
        Flavour := s9
        Characteristics := s10
        Ripening := s11
        Organic := organic
        CategoryType := s13
        MilkType := s14
        MilkTreatmentType := s15
        RindType := s16
        LastUpdateDate := s17
      }, in18)

/-- Go `readString`: reads one line of the console input `stdin` (the scanner yields the
empty text at the end of the input) and returns `"N/A"` when the line is empty; the
second component is the input left to read. -/
def readString (stdin : List String) : String × List String :=
  let s := stdin.headD ""
  (if s = "" then "N/A" else s, stdin.tail)

/-- Go `createRecord`: the eighteen prompts are answered by the console input `stdin`,
and the result is the store with the input left to read. -/
def createRecord (fl : FloatLib) (records : List Record) (stdin : List String) :
    List Record × List String :=
  let (s0, in1) := readString stdin
  let (s1, in2) := readString in1
  let (s2, in3) := readString in2
  let (s3, in4) := readString in3
  let (s4, in5) := readString in4
  let (s5, in6) := readString in5
  let (s6, in7) := readString in6
  let (s7, in8) := readString in7
  let (s8, in9) := readString in8
  let (s9, in10) := readString in9
  let (s10, in11) := readString in10
  let (s11, in12) := readString in11
  let (s12, in13) := readString in12
  let (s13, in14) := readString in13
  let (s14, in15) := readString in14
  let (s15, in16) := readString in15
  let (s16, in17) := readString in16
  let (s17, in18) := readString in17
  let cheeseId := (ParseInt s0).getD 0
  let fatContentPercent := (fl.ParseFloat32 s6).getD Float32.zero
  let moisturePercent := (fl.ParseFloat32 s7).getD Float32.zero
  let organic := (ParseBool s12).getD false
  let r : Record := {
    CheeseId := cheeseId
    CheeseName := s1
    ManufacturerName := s2
    ManufacturerProvCode := s3
    ManufacturingType := s4
    WebSite := s5
    FatContentPercent := fatContentPercent
    MoisturePercent := moisturePercent
    Particularities := s8
    Flavour := s9
    Characteristics := s10
    Ripening := s11
    Organic := organic
    CategoryType := s13
    MilkType := s14
    MilkTreatmentType := s15
    RindType := s16
    LastUpdateDate := s17
  }
  (records ++ [r], in18)

/-- Go `recordToSlice`. -/
def recordToSlice (fl : FloatLib) (record : Record) : List String :=
  [fmtInt record.CheeseId, record.CheeseName, record.ManufacturerName,
   record.ManufacturerProvCode, record.ManufacturingType, record.WebSite,
   fl.FormatFloat2 record.FatContentPercent, fl.FormatFloat2 record.MoisturePercent,
   record.Particularities, record.Flavour, record.Characteristics, record.Ripening,
   fmtBool record.Organic, record.CategoryType, record.MilkType,
   record.MilkTreatmentType, record.RindType, record.LastUpdateDate]

/-! ## Menu and record selection -/

/-- Go constant `OptionReload`. -/
def OptionReload : Int := 1

/-- Go constant `OptionPersist`. -/
def OptionPersist : Int := 2

/-- Go constant `OptionDisplayAll`. -/
def OptionDisplayAll : Int := 3

/-- Go constant `OptionCreate`. -/
def OptionCreate : Int := 4

/-- Go constant `OptionDisplay`. -/
def OptionDisplay : Int := 5

/-- Go constant `OptionEdit`. -/
def OptionEdit : Int := 6

/-- Go constant `OptionDelete`. -/
def OptionDelete : Int := 7

/-- Go constant `OptionExit`. -/
def OptionExit : Int := 8

/-- Go `showMenu`, over the sequence of console inputs: each input is the outcome of one
`fmt.Scanf("%d", &selection)`, `none` for a non-nil error and `some n` for the integer
read.  The result is the accepted selection with the inputs left to read; `none` means
that no input of the sequence is accepted, so that the loop is still prompting. -/
def showMenu : List (Option Int) → Option (Int × List (Option Int))
  | [] => none
  | none :: rest => showMenu rest
  | some selection :: rest =>
    if selection < OptionReload ∨ selection > OptionExit then showMenu rest
    else some (selection, rest)

/-- The operations of the main loop. -/
inductive Operation
  | reload
  | persist
  | displayAll
  | create
  | display
  | edit
  | delete
  | exit
  deriving DecidableEq, Repr

/-- The `switch` of Go `main` on the selection: the case that runs, if any. -/
def dispatch (selection : Int) : Option Operation :=
  if selection = OptionReload then some Operation.reload
  else if selection = OptionPersist then some Operation.persist
  else if selection = OptionDisplayAll then some Operation.displayAll
  else if selection = OptionCreate then some Operation.create
  else if selection = OptionDisplay then some Operation.display
  else if selection = OptionEdit then some Operation.edit
  else if selection = OptionDelete then some Operation.delete
  else if selection = OptionExit then some Operation.exit
  else none

/-- The record-selection loop of Go `displayRecord`, `editRecord` and `deleteRecord`, over
the sequence of console inputs: each input is the outcome of one `fmt.Scanf("%d", &id)`,
`none` for a non-nil error and `some n` for the integer read; `len` is `len(records)`
(the row count of the mirror in the `displayRecord` of assignment 4).  The result is the
accepted index with the inputs left to read; `none` means that no input of the sequence
is accepted, so that the loop is still prompting. -/
def selectRecordId (len : Int) : List (Option Int) → Option (Int × List (Option Int))
  | [] => none
  | none :: rest => selectRecordId len rest
  | some id :: rest =>
    if id < 0 ∨ id > len - 1 then selectRecordId len rest
    else some (id, rest)

/-! ## Reading the CSV source -/

/-- The ways a run stops without a result. -/
inductive Abort
  | fatal
  | panic
  deriving DecidableEq, Repr

deriving instance DecidableEq for Except

/-- Go `check`: a non-nil error ends the process through `log.Fatal`. -/
def check (e : Option String) : Except Abort Unit :=
  match e with
  | none => Except.ok ()
  | some _ => Except.error Abort.fatal

/-- The CSV source as the program meets it: `os.Open` fails, or the file opens and its
text is not CSV (a quoting error), or the file opens and holds the lines `ls`, each
split into its fields, a blank line having none. -/
inductive CsvSource
  | cannotOpen (err : String)
  | cannotParse (err : String)
  | lines (ls : List (List String))

/-- Go `csv.Reader.ReadAll` with the default `FieldsPerRecord` of 0, on the lines of the
file: a blank line is not a record, and every record must have the number of fields of
the first one; otherwise the result is an error and no record. -/
def ReadAll (ls : List (List String)) : Except String (List (List String)) :=
  match ls.filter (fun l => !l.isEmpty) with
  | [] => Except.ok []
  | first :: rest =>
    if rest.all (fun l => l.length == first.length) then Except.ok (first :: rest)
    else Except.error "wrong number of fields"

/-- Go `getLinesFromCSV`: the lines and the error of `ReadAll`, after `check` on the error
of `os.Open`. -/
def getLinesFromCSV (source : CsvSource) :
    Except Abort (List (List String) × Option String) :=
  match source with
  | CsvSource.cannotOpen err => do
    check (some err)
    pure ([], none)
  | CsvSource.cannotParse err => do
    check none
    pure ([], some err)
  | CsvSource.lines ls => do
    check none
    match ReadAll ls with
    | Except.ok records => pure (records, none)
    | Except.error err => pure ([], some err)

/-- Go `loadData` from the source: `check` on the error of `getLinesFromCSV`, then the
decoding `loadData` of the lines, whose out-of-range accesses are panics. -/
def loadDataFrom (fl : FloatLib) (source : CsvSource) (numRecords : Int) :
    Except Abort (List Record) := do
  let (lines, err) ← getLinesFromCSV source
  check err
  match loadData fl lines numRecords with
  | none => throw Abort.panic
  | some records => pure records

/-! ## Mirror table

The table `cheeses` of the SQLite database is a list of rows, each with its `id` (the
`INTEGER PRIMARY KEY`) and its 18 columns as the engine holds them.  The statements are
taken to run without error; a `rows.Scan` error ends the process through `log.Fatal`. -/

/-- The value that a `REAL` column holds for the `float32` bound to it: SQLite keeps
`NULL` (`none`) for a NaN, keeps a value without fractional part as an integer, so that
`-0.0` becomes `0`, and gives every other value back as it was bound. -/
def sqlBindReal (x : Float32) : Option Float32 :=
  if x.isNaN then none
  else if x = Float32.negZero then some Float32.zero
  else some x

/-- The 18 columns of a row of the table `cheeses`, as the engine holds them; a `REAL`
column can be `NULL`. -/
structure Columns where
  cheese_id : Int
  cheese_name : String
  manufacturer_name : String
  manufacturer_prov_code : String
  manufacturing_type : String
  website : String
  fat_content_percent : Option Float32
  moisture_percent : Option Float32
  particularities : String
  flavour : String
  characteristics : String
  ripening : String
  organic : Bool
  category_type : String
  milk_type : String
  milk_treatment_type : String
  rind_type : String
  last_update_date : String
  deriving DecidableEq, Repr

/-- A row of the table `cheeses`. -/
structure Row where
  id : Int
  cols : Columns
  deriving DecidableEq, Repr

/-- The content of the table `cheeses` behind Go's `*sql.DB`. -/
abbrev Database := List Row

/-- The 18 arguments of the `statement.Exec` of Go `syncDb` for one record, as the
columns of the inserted row hold them. -/
def bindRecord (r : Record) : Columns where
  cheese_id := r.CheeseId
  cheese_name := r.CheeseName
  manufacturer_name := r.ManufacturerName
  manufacturer_prov_code := r.ManufacturerProvCode
  manufacturing_type := r.ManufacturingType
  website := r.WebSite
  fat_content_percent := sqlBindReal r.FatContentPercent
  moisture_percent := sqlBindReal r.MoisturePercent
  particularities := r.Particularities
  flavour := r.Flavour
  characteristics := r.Characteristics
  ripening := r.Ripening
  organic := r.Organic
  category_type := r.CategoryType
  milk_type := r.MilkType
  milk_treatment_type := r.MilkTreatmentType
  rind_type := r.RindType
  last_update_date := r.LastUpdateDate

/-- Go `rows.Scan` of a row into the 18 variables, followed by the `Record` built from
them: a `NULL` in a `REAL` column cannot be scanned into a `float32`, and the error ends
the process through `log.Fatal`. -/
def scanRow (c : Columns) : Except Abort Record :=
  match c.fat_content_percent, c.moisture_percent with
  | some fat, some moisture =>
    Except.ok {
      CheeseId := c.cheese_id
      CheeseName := c.cheese_name
      ManufacturerName := c.manufacturer_name
      ManufacturerProvCode := c.manufacturer_prov_code
      ManufacturingType := c.manufacturing_type
      WebSite := c.website
      FatContentPercent := fat
      MoisturePercent := moisture
      Particularities := c.particularities
      Flavour := c.flavour
      Characteristics := c.characteristics
      Ripening := c.ripening
      Organic := c.organic
      CategoryType := c.category_type
      MilkType := c.milk_type
      MilkTreatmentType := c.milk_treatment_type
      RindType := c.rind_type
      LastUpdateDate := c.last_update_date
    }
  | _, _ => Except.error Abort.fatal

/-- The largest `id` in use, if the table has a row. -/
def largestId : Database → Option Int
  | [] => none
  | row :: rest =>
    match largestId rest with
    | none => some row.id
    | some m => some (max row.id m)

/-- SQL `DELETE FROM cheeses`. -/
def sqlDeleteAll (_database : Database) : Database := []

/-- SQL `INSERT INTO cheeses (...) VALUES (...)` without an `id`: the engine gives the
row the `id` 1 in an empty table, and one more than the largest `id` in use otherwise. -/
def sqlInsert (database : Database) (r : Record) : Database :=
  match largestId database with
  | none => database ++ [{ id := 1, cols := bindRecord r }]
  | some m => database ++ [{ id := m + 1, cols := bindRecord r }]

/-- SQL `SELECT ... FROM cheeses ORDER BY id ASC`. -/
def sqlSelectAll (database : Database) : List Row :=
  database.insertionSort (fun a b => a.id ≤ b.id)

/-- SQL `SELECT ... FROM cheeses WHERE id = $1`. -/
def sqlSelectById (database : Database) (id : Int) : List Row :=
  database.filter (fun row => row.id = id)

/-- SQL `SELECT count(*) FROM cheeses`: one row, holding the number of rows. -/
def sqlCount (database : Database) : List Int := [(database.length : Int)]

/-- The insert loop of Go `syncDb`, on the records `records[i:]` still to insert. -/
def syncLoop : List Record → Database → Database
  | [], database => database
  | r :: rest, database => syncLoop rest (sqlInsert database r)

/-- Go `syncDb`: the table after the delete and the inserts. -/
def syncDb (records : List Record) (database : Database) : Database :=
  syncLoop records (sqlDeleteAll database)

/-- The zero value of the Go struct `Record`. -/
def Record.zero : Record where
  CheeseId := 0
  CheeseName := ""
  ManufacturerName := ""
  ManufacturerProvCode := ""
  ManufacturingType := ""
  WebSite := ""
  FatContentPercent := Float32.zero
  MoisturePercent := Float32.zero
  Particularities := ""
  Flavour := ""
  Characteristics := ""
  Ripening := ""
  Organic := false
  CategoryType := ""
  MilkType := ""
  MilkTreatmentType := ""
  RindType := ""
  LastUpdateDate := ""

/-- The scan loop of Go `getAllCheeses`, on the rows of the result set still to read:
each row is scanned and appended to `rs` as a `Record`; a scan error is fatal. -/
def getAllLoop : List Row → List Record → Except Abort (List Record)
  | [], rs => Except.ok rs
  | row :: rest, rs =>
    match scanRow row.cols with
    | Except.error a => Except.error a
    | Except.ok r => getAllLoop rest (rs ++ [r])

/-- Go `getAllCheeses`: the records of the rows in `id` order, or the end of the process
at the first row that cannot be scanned. -/
def getAllCheeses (database : Database) : Except Abort (List Record) :=
  getAllLoop (sqlSelectAll database) []

/-- The scan loop of Go `getCheeseByRecordId`, on the rows of the result set still to
read: `vars` holds the values scanned so far; a scan error is fatal. -/
def lookupLoop : List Row → Record → Except Abort Record
  | [], vars => Except.ok vars
  | row :: rest, _ =>
    match scanRow row.cols with
    | Except.error a => Except.error a
    | Except.ok r => lookupLoop rest r

/-- Go `getCheeseByRecordId`: the variables start at their zero values, each row of the
result set is scanned into them, and the `Record` is built from them after the loop. -/
def getCheeseByRecordId (id : Int) (database : Database) : Except Abort Record :=
  lookupLoop (sqlSelectById database id) Record.zero

/-- Go `getCheeseCount`: `count` starts at 0 and each row of the result set is scanned
into it. -/
def getCheeseCount (database : Database) : Int :=
  (sqlCount database).foldl (fun _ n => n) 0

/-! ## Persisting -/

/-- The local `headers` of Go `persistToFile`. -/
def headers : List String :=
  ["CheeseId", "CheeseName", "ManufacturerName", "ManufacturerProvCode", "ManufacturingType",
   "WebSite", "FatContentPercent", "MoisturePercent", "Particularities", "Flavour",
   "Characteristics", "Ripening", "Organic", "CategoryType", "MilkType",
   "MilkTreatmentType", "RindType", "LastUpdateDate"]

/-- The write loop of Go `persistToFile`, on the records `rs[i:]` still to write: each
`writer.Write` adds a row after the rows `written` so far. -/
def writeLoop (fl : FloatLib) : List Record → List (List String) → List (List String)
  | [], written => written
  | r :: rest, written => writeLoop fl rest (written ++ [recordToSlice fl r])

/-- The rows that Go `persistToFile` writes for the records `rs`: the header, then the
write loop.  This is `persistToFile` of assignment 3, which takes the store. -/
def persistRows (fl : FloatLib) (rs : List Record) : List (List String) :=
  writeLoop fl rs [headers]

/-- Go `persistToFile` of assignment 4: the records are read from the mirror, `check`
ends the run when `os.Create` returns the error `createErr`, and the result is the rows
written to the file. -/
def persistToFile (fl : FloatLib) (database : Database) (createErr : Option String) :
    Except Abort (List (List String)) := do
  let rs ← getAllCheeses database
  check createErr
  pure (persistRows fl rs)

/-! ## Display and main loop -/

/-- The print loop of Go `displayAllRecords`, on the records `rs[i:]` still to print:
each line shows the loop index as `Record ID` and the record. -/
def displayAllLoop : Nat → List Record → List (Int × Record)
  | _, [] => []
  | i, r :: rest => ((i : Int), r) :: displayAllLoop (i + 1) rest

/-- Go `displayAllRecords` of assignment 4: the lines printed, each with its `Record ID`
and its record, once `getAllCheeses` has returned. -/
def displayAllRecords (database : Database) : Except Abort (List (Int × Record)) :=
  match getAllCheeses database with
  | Except.error a => Except.error a
  | Except.ok rs => Except.ok (displayAllLoop 0 rs)

/-- Go `displayRecord` of assignment 4: the selection loop runs against the row count of
the mirror, and the record displayed is the one `getCheeseByRecordId` returns for the
accepted index, unless the lookup ends the process; the second component is the inputs
left to read, and `none` means that no input is accepted. -/
def displayRecord (database : Database) (inputs : List (Option Int)) :
    Option (Except Abort Record × List (Option Int)) :=
  let count := getCheeseCount database
  match selectRecordId count inputs with
  | none => none
  | some (id, rest) => some (getCheeseByRecordId id database, rest)

/-- Go constant `NumRecordsToLoad`. -/
def NumRecordsToLoad : Int := 10000

/-- Go `initCheesesDatabase`: the table is created if it does not exist, and the content
`prior` of an existing table is left as it is. -/
def initCheesesDatabase (prior : Database) : Database := prior

/-- The two variables of Go `main`: the in-memory store and the mirror. -/
structure AppState where
  records : List Record
  database : Database
  deriving DecidableEq, Repr

/-- What one turn of the loop of `main` reads from outside the program: the outcomes of
the `Scanf` calls of `showMenu` and of the record-selection loop, the lines read by the
prompts, the CSV source at a reload and the error of `os.Create` at a persist. -/
structure StepInput where
  menu : List (Option Int)
  ids : List (Option Int)
  stdin : List String
  source : CsvSource
  createErr : Option String

/-- How one turn of the loop of `main` ends: the action completes and the loop goes on,
`main` returns, the process ends inside the action, or a selection loop accepts none of
its inputs and is still prompting. -/
inductive StepResult
  | next (s : AppState)
  | stop
  | abort (a : Abort)
  | blocked
  deriving DecidableEq, Repr

/-- The start of Go `main`: the data is loaded, the database opened and the mirror
synchronized. -/
def mainStart (fl : FloatLib) (source : CsvSource) (prior : Database) :
    Except Abort AppState :=
  match loadDataFrom fl source NumRecordsToLoad with
  | Except.error a => Except.error a
  | Except.ok records =>
    let database := initCheesesDatabase prior
    Except.ok { records := records, database := syncDb records database }

/-- One turn of the loop of Go `main`: the menu, then the `switch` on the selection.
`editRecord` assigns `records[id]` in place, so that the store `main` keeps is the store
`editRecord` returns, although `main` discards the returned slice. -/
def mainStep (fl : FloatLib) (s : AppState) (inp : StepInput) : StepResult :=
  match showMenu inp.menu with
  | none => StepResult.blocked
  | some (selection, _) =>
    match dispatch selection with
    | none => StepResult.next s
    | some Operation.reload =>
      match loadDataFrom fl inp.source NumRecordsToLoad with
      | Except.error a => StepResult.abort a
      | Except.ok records =>
        StepResult.next { records := records, database := syncDb records s.database }
    | some Operation.persist =>
      match persistToFile fl s.database inp.createErr with
      | Except.error a => StepResult.abort a
      | Except.ok _ => StepResult.next s
    | some Operation.displayAll =>
      match displayAllRecords s.database with
      | Except.error a => StepResult.abort a
      | Except.ok _ => StepResult.next s
    | some Operation.create =>
      let records := (createRecord fl s.records inp.stdin).1
      StepResult.next { records := records, database := syncDb records s.database }
    | some Operation.display =>
      match displayRecord s.database inp.ids with
      | none => StepResult.blocked
      | some (Except.error a, _) => StepResult.abort a
      | some (Except.ok _, _) => StepResult.next s
    | some Operation.edit =>
      match selectRecordId s.records.length inp.ids with
      | none => StepResult.blocked
      | some (id, _) =>
        match editRecord fl s.records id inp.stdin with
        | none => StepResult.abort Abort.panic
        | some (records, _) =>
          StepResult.next { records := records, database := syncDb records s.database }
    | some Operation.delete =>
      match selectRecordId s.records.length inp.ids with
      | none => StepResult.blocked
      | some (id, _) =>
        match deleteRecord s.records id with
        | none => StepResult.abort Abort.panic
        | some records =>
          StepResult.next { records := records, database := syncDb records s.database }
    | some Operation.exit => StepResult.stop

/-- The loop of Go `main` over the inputs of its successive turns: the state after the
last turn, or the way the run ended before. -/
def mainRun (fl : FloatLib) : AppState → List StepInput → StepResult
  | s, [] => StepResult.next s
  | s, inp :: rest =>
    match mainStep fl s inp with
    | StepResult.next s2 => mainRun fl s2 rest
    | StepResult.stop => StepResult.stop
    | StepResult.abort a => StepResult.abort a
    | StepResult.blocked => StepResult.blocked

/-! ## Vocabulary of the statements -/

/-- Column `k` of a line (the empty string when the line has no such column). -/
def col (line : List String) (k : Nat) : String := line.getD k ""

/-- The text that prompt number `k` of an edit returns: line `k` of the console input,
or the default `d` when that line is empty (or the input has ended). -/
def answerOr (stdin : List String) (k : Nat) (d : String) : String :=
  if stdin.getD k "" = "" then d else stdin.getD k ""

/-- The rows that hold the records `rs` under the consecutive ids `k`, `k + 1`, ... -/
def mirrorRows : Int → List Record → Database
  | _, [] => []
  | k, r :: rs => { id := k, cols := bindRecord r } :: mirrorRows (k + 1) rs

/-- A percentage that the mirror gives back as it was stored: neither a NaN nor `-0.0`. -/
def plainPercent (x : Float32) : Prop := x.isNaN = false ∧ x ≠ Float32.negZero

instance (x : Float32) : Decidable (plainPercent x) := by unfold plainPercent; infer_instance

/-- A record whose two percentages the mirror gives back as they were stored. -/
def storable (r : Record) : Prop :=
  plainPercent r.FatContentPercent ∧ plainPercent r.MoisturePercent

instance (r : Record) : Decidable (storable r) := by unfold storable; infer_instance

/-- The golden record with `-0.0` as its fat percentage. -/
def negZeroRecord : Record := { goldenRecord with FatContentPercent := Float32.negZero }

/-- The golden record with `0.0` as its fat percentage. -/
def posZeroRecord : Record := { goldenRecord with FatContentPercent := Float32.zero }

/-- The golden record with a NaN as its moisture percentage. -/
def nanRecord : Record := { goldenRecord with MoisturePercent := ⟨0x7FC00000⟩ }

/-- The option constant whose `case` in the `switch` of `main` runs the operation. -/
def optionOf : Operation → Int
  | Operation.reload => OptionReload
  | Operation.persist => OptionPersist
  | Operation.displayAll => OptionDisplayAll
  | Operation.create => OptionCreate
  | Operation.display => OptionDisplay
  | Operation.edit => OptionEdit
  | Operation.delete => OptionDelete
  | Operation.exit => OptionExit

/-- A base-10 integer literal: an optional sign followed by at least one decimal digit. -/
def isDecimalInteger (s : String) : Bool :=
  match s.data with
  | [] => false
  | '+' :: rest => !rest.isEmpty && rest.all Char.isDigit
  | '-' :: rest => !rest.isEmpty && rest.all Char.isDigit
  | cs => cs.all Char.isDigit

/-- The normalizer as the specification words it: the trimmed primary if that is
non-empty, else the trimmed secondary if that is non-empty, else `"N/A"`. -/
def normalizeSpec (primary secondary : String) : String :=
  if TrimSpace primary ≠ "" then TrimSpace primary
  else if TrimSpace secondary ≠ "" then TrimSpace secondary
  else "N/A"

/-! ## Lemmas -/

theorem get?_col (line : List String) (k : Nat) (h : k < line.length) :
    line.get? k = some (col line k) := by
  simp [col, List.getD, List.get?_eq_getElem?, List.getElem?_eq_getElem h]

/-- On a line with at least 30 columns the decoder returns the record of its columns. -/
theorem lineToRecord_eq (fl : FloatLib) (line : List String) (h : 30 ≤ line.length) :
    lineToRecord fl line = some {
      CheeseId := (ParseInt (col line 0)).getD 0
      CheeseName := getFirstNonEmptyStringOrNA (col line 1) (col line 2)
      ManufacturerName := getFirstNonEmptyStringOrNA (col line 3) (col line 4)
      ManufacturerProvCode := getFirstNonEmptyStringOrNA (col line 5) "??"
      ManufacturingType := getFirstNonEmptyStringOrNA (col line 6) (col line 7)
      WebSite := getFirstNonEmptyStringOrNA (col line 8) (col line 9)
      FatContentPercent := (fl.ParseFloat32 (col line 10)).getD Float32.zero
      MoisturePercent := (fl.ParseFloat32 (col line 11)).getD Float32.zero
      Particularities := getFirstNonEmptyStringOrNA (col line 12) (col line 13)
      Flavour := getFirstNonEmptyStringOrNA (col line 14) (col line 15)
      Characteristics := getFirstNonEmptyStringOrNA (col line 16) (col line 17)
      Ripening := getFirstNonEmptyStringOrNA (col line 18) (col line 19)
      Organic := (ParseBool (col line 20)).getD false
      CategoryType := getFirstNonEmptyStringOrNA (col line 21) (col line 22)
      MilkType := getFirstNonEmptyStringOrNA (col line 23) (col line 24)
      MilkTreatmentType := getFirstNonEmptyStringOrNA (col line 25) (col line 26)
      RindType := getFirstNonEmptyStringOrNA (col line 27) (col line 28)
      LastUpdateDate := col line 29 } := by
  have h0 := get?_col line 0 (by omega)
  have h1 := get?_col line 1 (by omega)
  have h2 := get?_col line 2 (by omega)
  have h3 := get?_col line 3 (by omega)
  have h4 := get?_col line 4 (by omega)
  have h5 := get?_col line 5 (by omega)
  have h6 := get?_col line 6 (by omega)
  have h7 := get?_col line 7 (by omega)
  have h8 := get?_col line 8 (by omega)
  have h9 := get?_col line 9 (by omega)
  have h10 := get?_col line 10 (by omega)
  have h11 := get?_col line 11 (by omega)
  have h12 := get?_col line 12 (by omega)
  have h13 := get?_col line 13 (by omega)
  have h14 := get?_col line 14 (by omega)
  have h15 := get?_col line 15 (by omega)
  have h16 := get?_col line 16 (by omega)
  have h17 := get?_col line 17 (by omega)
  have h18 := get?_col line 18 (by omega)
  have h19 := get?_col line 19 (by omega)
  have h20 := get?_col line 20 (by omega)
  have h21 := get?_col line 21 (by omega)
  have h22 := get?_col line 22 (by omega)
  have h23 := get?_col line 23 (by omega)
  have h24 := get?_col line 24 (by omega)
  have h25 := get?_col line 25 (by omega)
  have h26 := get?_col line 26 (by omega)
  have h27 := get?_col line 27 (by omega)
  have h28 := get?_col line 28 (by omega)
  have h29 := get?_col line 29 (by omega)
  simp only [lineToRecord, h0, h1, h2, h3, h4, h5, h6, h7, h8, h9, h10, h11, h12, h13, h14, h15, h16, h17, h18, h19, h20, h21, h22, h23, h24, h25, h26, h27, h28, h29]

theorem trimSpace_NA : TrimSpace "N/A" = "N/A" := by decide

theorem trimSpace_unknownProv : TrimSpace "??" ≠ "" := by decide

/-- The normalizer never returns a blank string. -/
theorem getFirstNonEmptyStringOrNA_nonblank (first second : String) :
    TrimSpace (getFirstNonEmptyStringOrNA first second) ≠ "" := by
  unfold getFirstNonEmptyStringOrNA
  by_cases h1 : TrimSpace first ≠ ""
  · rw [if_pos h1]; exact h1
  · by_cases h2 : TrimSpace second ≠ ""
    · rw [if_neg h1, if_pos h2]; exact h2
    · rw [if_neg h1, if_neg h2]; decide

theorem col_set_ne (line : List String) (i k : Nat) (s : String) (h : i ≠ k) :
    col (line.set i s) k = col line k := by
  simp [col, List.getD_eq_getElem?_getD, List.getElem?_set, h]

theorem col_set_eq (line : List String) (i : Nat) (s : String) (h : i < line.length) :
    col (line.set i s) i = s := by
  simp [col, List.getD_eq_getElem?_getD, List.getElem?_set, h]

theorem parseUintLoop_not_digits (cs : List Char) :
    ∀ n, cs.all Char.isDigit = false → parseUintLoop n cs = none := by
  induction cs with
  | nil => intro n h; simp at h
  | cons c cs ih =>
    intro n h
    unfold parseUintLoop
    by_cases hc : c.isDigit = true
    · simp only [hc, if_true]
      have hcs : cs.all Char.isDigit = false := by
        simpa [List.all_cons, hc] using h
      split
      · exact ih _ hcs
      · rfl
    · simp only [hc, if_false]; rfl

theorem parseUint_not_digits (cs : List Char)
    (h : (!cs.isEmpty && cs.all Char.isDigit) = false) : ParseUint cs = none := by
  cases cs with
  | nil => rfl
  | cons c cs =>
    have h2 : (c :: cs).all Char.isDigit = false := by simpa using h
    simp only [ParseUint]
    exact parseUintLoop_not_digits _ _ h2

/-- A text that is not a base-10 integer literal is rejected by `ParseInt`. -/
theorem parseInt_not_decimal (s : String) (h : isDecimalInteger s = false) :
    ParseInt s = none := by
  unfold isDecimalInteger at h
  unfold ParseInt
  generalize s.data = l at h
  split
  · rfl
  · next rest =>
    simp only [parseUint_not_digits rest h, Option.none_bind]
  · next rest =>
    simp only [parseUint_not_digits rest h, Option.none_bind]
  · next hnil hplus hminus =>
    have hcs : l.all Char.isDigit = false := by
      split at h
      · exact absurd rfl hnil
      · exact absurd rfl (hplus _)
      · exact absurd rfl (hminus _)
      · exact h
    have hne : (!l.isEmpty && l.all Char.isDigit) = false := by simp [hcs]
    simp only [parseUint_not_digits l hne, Option.none_bind]

theorem parseBool_none_iff (s : String) :
    ParseBool s = none ↔
      s ∉ ["1", "t", "T", "true", "TRUE", "True", "0", "f", "F", "false", "FALSE", "False"] := by
  unfold ParseBool
  simp only [List.mem_cons, List.mem_singleton, List.not_mem_nil, or_false]
  split_ifs with h1 h2 <;> simp only [reduceCtorEq, false_iff, true_iff, not_not] <;> tauto

/-- The loading loop on lines of at least 30 columns: it appends the decoding of the
first `numRecords - i` lines. -/
theorem loadLoop_spec (fl : FloatLib) (numRecords : Int) (lines : List (List String)) :
    ∀ (i : Nat) (records : List Record), (∀ l ∈ lines, 30 ≤ l.length) →
      ∃ recs, loadLoop fl numRecords i lines records = some (records ++ recs) ∧
        recs.map some = (lines.take (numRecords - i).toNat).map (lineToRecord fl) := by
  induction lines with
  | nil =>
    intro i records _
    exact ⟨[], by simp [loadLoop], by simp⟩
  | cons line rest ih =>
    intro i records hcols
    have hline : 30 ≤ line.length := hcols line (List.mem_cons_self _ _)
    have hrest : ∀ l ∈ rest, 30 ≤ l.length := fun l hl => hcols l (List.mem_cons_of_mem _ hl)
    by_cases hi : (i : Int) < numRecords
    · obtain ⟨r, hr⟩ : ∃ r, lineToRecord fl line = some r :=
        ⟨_, lineToRecord_eq fl line hline⟩
      obtain ⟨recs, hrecs, hmap⟩ := ih (i + 1) (records ++ [r]) hrest
      refine ⟨r :: recs, ?_, ?_⟩
      · unfold loadLoop
        rw [if_pos hi, hr]
        simp only [hrecs, List.append_assoc, List.singleton_append]
      · have hk : (numRecords - (i : Int)).toNat = (numRecords - ((i + 1 : Nat) : Int)).toNat + 1 := by
          omega
        rw [hk, List.take_succ_cons, List.map_cons, List.map_cons, hmap, hr]
    · refine ⟨[], ?_, ?_⟩
      · unfold loadLoop
        rw [if_neg hi, List.append_nil]
      · have hk : (numRecords - (i : Int)).toNat = 0 := by omega
        rw [hk]; rfl

theorem digitChar_digit (d : Nat) (h : d < 10) :
    (Nat.digitChar d).isDigit = true ∧ (Nat.digitChar d).toNat - 48 = d ∧
      Nat.digitChar d ≠ '+' ∧ Nat.digitChar d ≠ '-' := by
  interval_cases d <;> decide

theorem parseUintLoop_fmtUintCore :
    ∀ (fuel u : Nat) (acc : List Char), u < fuel → u < 2 ^ 64 →
      parseUintLoop 0 (fmtUintCore fuel u acc) = parseUintLoop u acc := by
  intro fuel
  induction fuel with
  | zero => intro u acc h; omega
  | succ fuel ih =>
    intro u acc hfuel hu
    unfold fmtUintCore
    by_cases h10 : u ≥ 10
    · rw [if_pos h10, ih (u / 10) _ (by omega) (by omega)]
      obtain ⟨hd, hv, -, -⟩ := digitChar_digit (u % 10) (Nat.mod_lt _ (by omega))
      rw [parseUintLoop, if_pos hd]
      have hn : u / 10 * 10 + ((Nat.digitChar (u % 10)).toNat - 48) = u := by
        rw [hv]; omega
      simp only [hn, if_pos hu]
    · rw [if_neg h10]
      obtain ⟨hd, hv, -, -⟩ := digitChar_digit u (by omega)
      rw [parseUintLoop, if_pos hd]
      have hn : 0 * 10 + ((Nat.digitChar u).toNat - 48) = u := by
        rw [hv]; omega
      simp only [hn, if_pos hu]

theorem fmtUintCore_head :
    ∀ (fuel u : Nat) (acc : List Char),
      (fuel = 0 → ∃ d cs, d < 10 ∧ acc = Nat.digitChar d :: cs) →
      ∃ d cs, d < 10 ∧ fmtUintCore fuel u acc = Nat.digitChar d :: cs := by
  intro fuel
  induction fuel with
  | zero => intro u acc h; exact h rfl
  | succ fuel ih =>
    intro u acc _
    unfold fmtUintCore
    by_cases h10 : u ≥ 10
    · rw [if_pos h10]
      exact ih _ _ (fun _ => ⟨u % 10, acc, Nat.mod_lt _ (by omega), rfl⟩)
    · rw [if_neg h10]
      exact ⟨u, acc, by omega, rfl⟩

/-- Parsing the decimal digits of an unsigned 64-bit value gives the value back. -/
theorem parseUint_fmtUint (u : Nat) (hu : u < 2 ^ 64) : ParseUint (fmtUint u) = some u := by
  obtain ⟨d, cs, _, hcs⟩ := fmtUintCore_head (u + 1) u [] (fun h => by omega)
  have hl := parseUintLoop_fmtUintCore (u + 1) u [] (by omega) hu
  unfold fmtUint
  rw [hcs] at hl
  rw [hcs]
  show parseUintLoop 0 (Nat.digitChar d :: cs) = some u
  rw [hl]
  rfl

theorem signedInRange_neg (un : Nat) (h : un ≤ 2 ^ 63) :
    signedInRange true un = some (-(un : Int)) := by
  simp only [signedInRange, Bool.not_true, Bool.false_and, Bool.false_eq_true, if_false,
    Bool.true_and, decide_eq_true_eq, if_true]
  rw [if_neg (by omega)]

theorem signedInRange_pos (un : Nat) (h : un < 2 ^ 63) :
    signedInRange false un = some (un : Int) := by
  simp only [signedInRange, Bool.not_false, Bool.true_and, decide_eq_true_eq,
    Bool.false_and, Bool.false_eq_true, if_false]
  rw [if_neg (by omega)]

/-- Formatting an `int` with `%d` and parsing it back is the identity. -/
theorem parseInt_fmtInt (n : Int) (hn : isInt n) : ParseInt (fmtInt n) = some n := by
  obtain ⟨hlo, hhi⟩ := hn
  obtain ⟨d, cs, hd, hcs⟩ := fmtUintCore_head (n.natAbs + 1) n.natAbs [] (fun h => by omega)
  obtain ⟨-, -, hplus, hminus⟩ := digitChar_digit d hd
  have hp := parseUint_fmtUint n.natAbs (by omega)
  unfold ParseInt fmtInt
  by_cases hneg : n < 0
  · rw [if_pos hneg]
    simp only [hp, Option.some_bind]
    rw [signedInRange_neg _ (by omega), Option.some.injEq]
    omega
  · rw [if_neg hneg]
    have hfmt : fmtUint n.natAbs = Nat.digitChar d :: cs := hcs
    simp only [hfmt]
    split
    · next heq => simp at heq
    · next rest heq =>
      simp only [List.cons.injEq] at heq
      exact absurd heq.1 hplus
    · next rest heq =>
      simp only [List.cons.injEq] at heq
      exact absurd heq.1 hminus
    · rw [← hfmt, hp]
      simp only [Option.some_bind]
      rw [signedInRange_pos _ (by omega), Option.some.injEq]
      omega

/-- Formatting a `bool` with `%t` and parsing it back is the identity. -/
theorem parseBool_fmtBool (b : Bool) : ParseBool (fmtBool b) = some b := by
  cases b <;> decide

theorem headD_eq_getD (l : List String) : l.headD "" = l.getD 0 "" := by
  cases l <;> rfl

theorem getD_drop (l : List String) (i j : Nat) :
    (l.drop i).getD j "" = l.getD (i + j) "" := by
  simp only [List.getD_eq_getElem?_getD, List.getElem?_drop]

theorem readNewOrKeepDefaultString_drop (d : String) (stdin : List String) (k : Nat) :
    readNewOrKeepDefaultString d (stdin.drop k) = (answerOr stdin k d, stdin.drop (k + 1)) := by
  simp only [readNewOrKeepDefaultString, answerOr, headD_eq_getD, getD_drop, Nat.add_zero,
    List.tail_drop]

/-- The edit of the record at a valid index, written out: every field is rebuilt from the
text its prompt returns. -/
theorem editRecord_eq (fl : FloatLib) (records : List Record) (id : Int)
    (stdin : List String) (r : Record) (h0 : 0 ≤ id)
    (hr : records.get? id.toNat = some r) :
    editRecord fl records id stdin = some (records.set id.toNat {
      CheeseId := (ParseInt (answerOr stdin 0 (fmtInt r.CheeseId))).getD 0
      CheeseName := answerOr stdin 1 r.CheeseName
      ManufacturerName := answerOr stdin 2 r.ManufacturerName
      ManufacturerProvCode := answerOr stdin 3 r.ManufacturerProvCode
      ManufacturingType := answerOr stdin 4 r.ManufacturingType
      WebSite := answerOr stdin 5 r.WebSite
      FatContentPercent :=
        (fl.ParseFloat32 (answerOr stdin 6 (fl.FormatFloat2 r.FatContentPercent))).getD
          Float32.zero
      MoisturePercent :=
        (fl.ParseFloat32 (answerOr stdin 7 (fl.FormatFloat2 r.MoisturePercent))).getD
          Float32.zero
      Particularities := answerOr stdin 8 r.Particularities
      Flavour := answerOr stdin 9 r.Flavour
      Characteristics := answerOr stdin 10 r.Characteristics
      Ripening := answerOr stdin 11 r.Ripening
      Organic := (ParseBool (answerOr stdin 12 (fmtBool r.Organic))).getD false
      CategoryType := answerOr stdin 13 r.CategoryType
      MilkType := answerOr stdin 14 r.MilkType
      MilkTreatmentType := answerOr stdin 15 r.MilkTreatmentType
      RindType := answerOr stdin 16 r.RindType
      LastUpdateDate := answerOr stdin 17 r.LastUpdateDate }, stdin.drop 18) := by
  have hs : stdin = stdin.drop 0 := rfl
  unfold editRecord
  rw [if_neg (by omega), hr]
  simp only []
  conv_lhs => rw [hs]
  simp only [readNewOrKeepDefaultString_drop, Nat.reduceAdd]

theorem readString_drop (stdin : List String) (k : Nat) :
    readString (stdin.drop k) = (answerOr stdin k "N/A", stdin.drop (k + 1)) := by
  simp only [readString, answerOr, headD_eq_getD, getD_drop, Nat.add_zero, List.tail_drop]

/-- The creation of a record, written out: every field is built from the text its prompt
returns, the store is extended at its end. -/
theorem createRecord_eq (fl : FloatLib) (records : List Record) (stdin : List String) :
    createRecord fl records stdin = (records ++ [{
      CheeseId := (ParseInt (answerOr stdin 0 "N/A")).getD 0
      CheeseName := answerOr stdin 1 "N/A"
      ManufacturerName := answerOr stdin 2 "N/A"
      ManufacturerProvCode := answerOr stdin 3 "N/A"
      ManufacturingType := answerOr stdin 4 "N/A"
      WebSite := answerOr stdin 5 "N/A"
      FatContentPercent := (fl.ParseFloat32 (answerOr stdin 6 "N/A")).getD Float32.zero
      MoisturePercent := (fl.ParseFloat32 (answerOr stdin 7 "N/A")).getD Float32.zero
      Particularities := answerOr stdin 8 "N/A"
      Flavour := answerOr stdin 9 "N/A"
      Characteristics := answerOr stdin 10 "N/A"
      Ripening := answerOr stdin 11 "N/A"
      Organic := (ParseBool (answerOr stdin 12 "N/A")).getD false
      CategoryType := answerOr stdin 13 "N/A"
      MilkType := answerOr stdin 14 "N/A"
      MilkTreatmentType := answerOr stdin 15 "N/A"
      RindType := answerOr stdin 16 "N/A"
      LastUpdateDate := answerOr stdin 17 "N/A" }], stdin.drop 18) := by
  have hs : stdin = stdin.drop 0 := rfl
  unfold createRecord
  simp only []
  conv_lhs => rw [hs]
  simp only [readString_drop, Nat.reduceAdd]

theorem fmtBool_ne_empty (b : Bool) : fmtBool b ≠ "" := by
  cases b <;> decide

theorem largestId_mirrorRows (rs : List Record) :
    ∀ (k : Int) (r : Record), largestId (mirrorRows k (r :: rs)) = some (k + rs.length) := by
  induction rs with
  | nil => intro k r; simp [mirrorRows, largestId]
  | cons r2 rs ih =>
    intro k r
    have h := ih (k + 1) r2
    rw [mirrorRows, largestId, h]
    simp only [List.length_cons, Nat.cast_add, Nat.cast_one, Option.some.injEq]
    rw [max_eq_right (by omega)]
    omega

theorem mirrorRows_append_singleton (l : List Record) (r : Record) :
    ∀ k : Int, mirrorRows k (l ++ [r]) =
      mirrorRows k l ++ [{ id := k + l.length, cols := bindRecord r }] := by
  induction l with
  | nil => intro k; simp [mirrorRows]
  | cons a l ih =>
    intro k
    have e : k + 1 + (l.length : Int) = k + ((a :: l).length : Int) := by
      simp only [List.length_cons, Nat.cast_add, Nat.cast_one]
      omega
    show mirrorRows k (a :: (l ++ [r])) = _
    rw [mirrorRows, ih, mirrorRows, e]
    rfl

theorem sqlInsert_mirrorRows (l : List Record) (r : Record) :
    sqlInsert (mirrorRows 1 l) r = mirrorRows 1 (l ++ [r]) := by
  cases l with
  | nil => rfl
  | cons a l =>
    rw [sqlInsert, largestId_mirrorRows, mirrorRows_append_singleton]
    simp only [List.length_cons, Nat.cast_add, Nat.cast_one, List.append_cancel_left_eq,
      List.cons.injEq, Row.mk.injEq, and_true]
    omega

theorem syncLoop_mirrorRows (records : List Record) :
    ∀ pre : List Record,
      syncLoop records (mirrorRows 1 pre) = mirrorRows 1 (pre ++ records) := by
  induction records with
  | nil => intro pre; simp [syncLoop]
  | cons r rest ih =>
    intro pre
    rw [syncLoop, sqlInsert_mirrorRows, ih]
    simp only [List.append_assoc, List.singleton_append]

/-- After `syncDb` the table holds the records of the store under the ids 1, 2, ... -/
theorem syncDb_eq (records : List Record) (database : Database) :
    syncDb records database = mirrorRows 1 records := by
  have h := syncLoop_mirrorRows records []
  simpa only [syncDb, sqlDeleteAll, mirrorRows, List.nil_append] using h

theorem mirrorRows_id_ge (l : List Record) :
    ∀ (k : Int) (row : Row), row ∈ mirrorRows k l → k ≤ row.id := by
  induction l with
  | nil => intro k row h; simp [mirrorRows] at h
  | cons a l ih =>
    intro k row h
    simp only [mirrorRows, List.mem_cons] at h
    rcases h with h | h
    · rw [h]
    · have := ih (k + 1) row h
      omega

theorem mirrorRows_sorted (l : List Record) :
    ∀ k : Int, (mirrorRows k l).Sorted (fun a b => a.id ≤ b.id) := by
  induction l with
  | nil => intro k; simp [mirrorRows]
  | cons a l ih =>
    intro k
    rw [mirrorRows, List.sorted_cons]
    refine ⟨?_, ih (k + 1)⟩
    intro row hrow
    have := mirrorRows_id_ge l (k + 1) row hrow
    show k ≤ row.id
    omega

theorem mirrorRows_cols (l : List Record) :
    ∀ k : Int, (mirrorRows k l).map (fun row => row.cols) = l.map bindRecord := by
  induction l with
  | nil => intro k; rfl
  | cons a l ih => intro k; simp only [mirrorRows, List.map_cons, ih]

/-- The ids of the rows filled under consecutive ids from `k` on. -/
theorem mirrorRows_ids (l : List Record) :
    ∀ k : Int, (mirrorRows k l).map (fun row => row.id) =
      (List.range l.length).map (fun i : Nat => (i : Int) + k) := by
  induction l with
  | nil => intro k; rfl
  | cons a l ih =>
    intro k
    rw [mirrorRows, List.map_cons, ih (k + 1), List.length_cons, List.range_succ_eq_map,
      List.map_cons, List.map_map]
    refine congrArg₂ List.cons (by simp) (List.map_congr_left ?_)
    intro i _
    simp only [Function.comp, Nat.cast_succ]
    omega

theorem mirrorRows_length (l : List Record) (k : Int) : (mirrorRows k l).length = l.length := by
  rw [← List.length_map (mirrorRows k l) (fun row => row.cols), mirrorRows_cols,
    List.length_map]

theorem sqlBindReal_plain (x : Float32) (h : plainPercent x) : sqlBindReal x = some x := by
  unfold sqlBindReal
  rw [h.1, if_neg h.2]
  rfl

/-- A record with plain percentages is read back from its row as it was stored. -/
theorem scanRow_bindRecord (r : Record) (h : storable r) :
    scanRow (bindRecord r) = Except.ok r := by
  simp only [scanRow, bindRecord, sqlBindReal_plain _ h.1, sqlBindReal_plain _ h.2]

theorem getAllLoop_mirrorRows (l : List Record) :
    ∀ (k : Int) (acc : List Record), (∀ r ∈ l, storable r) →
      getAllLoop (mirrorRows k l) acc = Except.ok (acc ++ l) := by
  induction l with
  | nil => intro k acc _; simp [mirrorRows, getAllLoop]
  | cons a l ih =>
    intro k acc h
    rw [mirrorRows, getAllLoop]
    simp only [scanRow_bindRecord a (h a (List.mem_cons_self _ _))]
    rw [ih (k + 1) (acc ++ [a]) (fun r hr => h r (List.mem_cons_of_mem _ hr))]
    simp only [List.append_assoc, List.singleton_append]

/-- Reading all the rows of a table filled under consecutive ids gives the records back,
when their percentages are plain. -/
theorem getAllCheeses_mirrorRows (l : List Record) (k : Int) (h : ∀ r ∈ l, storable r) :
    getAllCheeses (mirrorRows k l) = Except.ok l := by
  rw [getAllCheeses, sqlSelectAll, (mirrorRows_sorted l k).insertionSort_eq,
    getAllLoop_mirrorRows l k [] h, List.nil_append]

theorem sqlSelectById_mirrorRows_lt (l : List Record) (j k : Int) (h : k < j) :
    sqlSelectById (mirrorRows j l) k = [] := by
  rw [sqlSelectById, List.filter_eq_nil_iff]
  intro row hrow
  have := mirrorRows_id_ge l j row hrow
  simp only [decide_eq_true_eq]
  omega

/-- The row with id `k` of a table filled under consecutive ids from `j`. -/
theorem sqlSelectById_mirrorRows (l : List Record) :
    ∀ (j k : Int) (r : Record), j ≤ k → l.get? (k - j).toNat = some r →
      sqlSelectById (mirrorRows j l) k = [{ id := k, cols := bindRecord r }] := by
  induction l with
  | nil => intro j k r _ h; simp at h
  | cons a l ih =>
    intro j k r hjk hget
    by_cases hk : j = k
    · subst hk
      simp only [sub_self, Int.toNat_zero, List.get?_cons_zero, Option.some.injEq] at hget
      have hrest := sqlSelectById_mirrorRows_lt l (j + 1) j (by omega)
      rw [sqlSelectById] at hrest
      rw [mirrorRows, sqlSelectById, List.filter_cons, hrest, hget]
      simp
    · have hsucc : (k - j).toNat = (k - (j + 1)).toNat + 1 := by omega
      rw [hsucc, List.get?_cons_succ] at hget
      have hrest := ih (j + 1) k r (by omega) hget
      rw [sqlSelectById] at hrest
      rw [mirrorRows, sqlSelectById, List.filter_cons, hrest]
      simp [hk]

theorem writeLoop_eq (fl : FloatLib) (rs : List Record) :
    ∀ written : List (List String),
      writeLoop fl rs written = written ++ rs.map (recordToSlice fl) := by
  induction rs with
  | nil => intro written; simp [writeLoop]
  | cons r rs ih =>
    intro written
    simp only [writeLoop, ih, List.map_cons, List.append_assoc, List.singleton_append]

theorem selectRecordId_some (len : Int) (inputs : List (Option Int)) :
    ∀ (id : Int) (rest : List (Option Int)), selectRecordId len inputs = some (id, rest) →
      ∃ pre, inputs = pre ++ some id :: rest ∧ 0 ≤ id ∧ id ≤ len - 1 ∧
        ∀ x ∈ pre, ∀ i, x = some i → i < 0 ∨ i > len - 1 := by
  induction inputs with
  | nil => intro id rest h; simp [selectRecordId] at h
  | cons x t ih =>
    intro id rest h
    cases x with
    | none =>
      rw [selectRecordId] at h
      obtain ⟨pre, hpre, h0, h1, hrej⟩ := ih id rest h
      refine ⟨none :: pre, by rw [hpre]; rfl, h0, h1, ?_⟩
      intro y hy i hi
      rcases List.mem_cons.mp hy with hy | hy
      · rw [hy] at hi; exact Option.noConfusion hi
      · exact hrej y hy i hi
    | some n =>
      rw [selectRecordId] at h
      by_cases hn : n < 0 ∨ n > len - 1
      · rw [if_pos hn] at h
        obtain ⟨pre, hpre, h0, h1, hrej⟩ := ih id rest h
        refine ⟨some n :: pre, by rw [hpre]; rfl, h0, h1, ?_⟩
        intro y hy i hi
        rcases List.mem_cons.mp hy with hy | hy
        · rw [hy] at hi
          rw [← Option.some.inj hi]
          exact hn
        · exact hrej y hy i hi
      · rw [if_neg hn] at h
        simp only [Option.some.injEq, Prod.mk.injEq] at h
        obtain ⟨hid, hrest⟩ := h
        subst hid hrest
        exact ⟨[], rfl, by omega, by omega, by simp⟩

theorem selectRecordId_append (len : Int) (id : Int) (rest : List (Option Int))
    (h0 : 0 ≤ id) (h1 : id ≤ len - 1) (pre : List (Option Int)) :
    (∀ x ∈ pre, ∀ i, x = some i → i < 0 ∨ i > len - 1) →
      selectRecordId len (pre ++ some id :: rest) = some (id, rest) := by
  induction pre with
  | nil =>
    intro _
    rw [List.nil_append, selectRecordId, if_neg (by omega)]
  | cons x t ih =>
    intro hrej
    have ht := ih (fun y hy => hrej y (List.mem_cons_of_mem _ hy))
    cases x with
    | none => rw [List.cons_append, selectRecordId, ht]
    | some n =>
      have hn := hrej (some n) (List.mem_cons_self _ _) n rfl
      rw [List.cons_append, selectRecordId, if_pos hn, ht]

theorem showMenu_some (inputs : List (Option Int)) :
    ∀ (n : Int) (rest : List (Option Int)), showMenu inputs = some (n, rest) →
      ∃ pre, inputs = pre ++ some n :: rest ∧ 1 ≤ n ∧ n ≤ 8 ∧
        ∀ x ∈ pre, ∀ i, x = some i → i < 1 ∨ i > 8 := by
  induction inputs with
  | nil => intro n rest h; simp [showMenu] at h
  | cons x t ih =>
    intro n rest h
    cases x with
    | none =>
      rw [showMenu] at h
      obtain ⟨pre, hpre, h0, h1, hrej⟩ := ih n rest h
      refine ⟨none :: pre, by rw [hpre]; rfl, h0, h1, ?_⟩
      intro y hy i hi
      rcases List.mem_cons.mp hy with hy | hy
      · rw [hy] at hi; exact Option.noConfusion hi
      · exact hrej y hy i hi
    | some m =>
      rw [showMenu] at h
      by_cases hm : m < OptionReload ∨ m > OptionExit
      · rw [if_pos hm] at h
        obtain ⟨pre, hpre, h0, h1, hrej⟩ := ih n rest h
        refine ⟨some m :: pre, by rw [hpre]; rfl, h0, h1, ?_⟩
        intro y hy i hi
        rcases List.mem_cons.mp hy with hy | hy
        · rw [hy] at hi
          rw [← Option.some.inj hi]
          exact hm
        · exact hrej y hy i hi
      · rw [if_neg hm] at h
        simp only [Option.some.injEq, Prod.mk.injEq] at h
        obtain ⟨hid, hrest⟩ := h
        subst hid hrest
        simp only [OptionReload, OptionExit] at hm
        exact ⟨[], rfl, by omega, by omega, by simp⟩

theorem showMenu_append (n : Int) (rest : List (Option Int))
    (h0 : 1 ≤ n) (h1 : n ≤ 8) (pre : List (Option Int)) :
    (∀ x ∈ pre, ∀ i, x = some i → i < 1 ∨ i > 8) →
      showMenu (pre ++ some n :: rest) = some (n, rest) := by
  induction pre with
  | nil =>
    intro _
    rw [List.nil_append, showMenu, if_neg (by simp only [OptionReload, OptionExit]; omega)]
  | cons x t ih =>
    intro hrej
    have ht := ih (fun y hy => hrej y (List.mem_cons_of_mem _ hy))
    cases x with
    | none => rw [List.cons_append, showMenu, ht]
    | some m =>
      have hm := hrej (some m) (List.mem_cons_self _ _) m rfl
      rw [List.cons_append, showMenu, if_pos (by simpa only [OptionReload, OptionExit] using hm), ht]

theorem dispatch_some (m : Int) (op : Operation) (h : dispatch m = some op) :
    m = optionOf op := by
  unfold dispatch at h
  split_ifs at h with h1 h2 h3 h4 h5 h6 h7 h8 <;> cases h <;> assumption

theorem answerOr_NA_ne_empty (stdin : List String) (k : Nat) :
    answerOr stdin k "N/A" ≠ "" := by
  unfold answerOr
  by_cases h : stdin.getD k "" = ""
  · rw [if_pos h]; decide
  · rw [if_neg h]; exact h

theorem trimSpace_answerOr_NA (stdin : List String) (k : Nat) :
    TrimSpace (answerOr stdin k "N/A") = "" ↔
      stdin.getD k "" ≠ "" ∧ TrimSpace (stdin.getD k "") = "" := by
  unfold answerOr
  by_cases h : stdin.getD k "" = ""
  · rw [if_pos h, trimSpace_NA]
    constructor
    · intro hna; exact absurd hna (by decide)
    · intro hne; exact absurd h hne.1
  · rw [if_neg h]
    exact ⟨fun ht => ⟨h, ht⟩, fun hne => hne.2⟩

theorem parseBool_getD_true_iff (s : String) :
    (ParseBool s).getD false = true ↔ s ∈ ["1", "t", "T", "TRUE", "true", "True"] := by
  unfold ParseBool
  simp only [List.mem_cons, List.mem_singleton, List.not_mem_nil, or_false]
  split_ifs with h1 h2
  · simp only [Option.getD_some, true_iff]; tauto
  · simp only [Option.getD_some, Bool.false_eq_true, false_iff]; tauto
  · simp only [Option.getD_none, Bool.false_eq_true, false_iff]; tauto

theorem mirrorRows_id_lt (l : List Record) :
    ∀ (k : Int) (row : Row), row ∈ mirrorRows k l → row.id < k + l.length := by
  induction l with
  | nil => intro k row h; simp [mirrorRows] at h
  | cons a l ih =>
    intro k row h
    simp only [mirrorRows, List.mem_cons] at h
    simp only [List.length_cons, Nat.cast_add, Nat.cast_one]
    rcases h with h | h
    · rw [h]; show k < k + (↑l.length + 1); omega
    · have := ih (k + 1) row h
      omega

/-- A lookup that matches no row returns the zero value of `Record`. -/
theorem getCheeseByRecordId_no_row (database : Database) (id : Int)
    (h : ∀ row ∈ database, row.id ≠ id) :
    getCheeseByRecordId id database = Except.ok Record.zero := by
  have hnil : sqlSelectById database id = [] := by
    rw [sqlSelectById, List.filter_eq_nil_iff]
    intro row hrow
    simp only [decide_eq_true_eq]
    exact h row hrow
  rw [getCheeseByRecordId, hnil]
  rfl

/-- A line with fewer than 30 columns makes the decoder index out of range. -/
theorem lineToRecord_short (fl : FloatLib) (line : List String) (h : line.length < 30) :
    lineToRecord fl line = none := by
  have h29 : line.get? 29 = none := by
    simp only [List.get?_eq_getElem?, List.getElem?_eq_none_iff]
    omega
  unfold lineToRecord
  split
  · next heq => rw [h29] at heq; exact Option.noConfusion heq
  · rfl

theorem col_append (line extra : List String) (k : Nat) (h : k < line.length) :
    col (line ++ extra) k = col line k := by
  simp only [col, List.getD_eq_getElem?_getD, List.getElem?_append_left h]

theorem lineToRecord_append (fl : FloatLib) (line extra : List String)
    (h : 30 ≤ line.length) : lineToRecord fl (line ++ extra) = lineToRecord fl line := by
  rw [lineToRecord_eq fl line h,
    lineToRecord_eq fl (line ++ extra) (by rw [List.length_append]; omega)]
  simp (disch := omega) only [col_append]

/-- The loading loop decodes the first `numRecords - i` lines only: it succeeds as soon
as these have at least 30 columns. -/
theorem loadLoop_take (fl : FloatLib) (numRecords : Int) (lines : List (List String)) :
    ∀ (i : Nat) (records : List Record),
      (∀ l ∈ lines.take (numRecords - i).toNat, 30 ≤ l.length) →
      ∃ recs, loadLoop fl numRecords i lines records = some (records ++ recs) ∧
        recs.map some = (lines.take (numRecords - i).toNat).map (lineToRecord fl) := by
  induction lines with
  | nil =>
    intro i records _
    exact ⟨[], by simp [loadLoop], by simp⟩
  | cons line rest ih =>
    intro i records hcols
    by_cases hi : (i : Int) < numRecords
    · have hk : (numRecords - (i : Int)).toNat =
          (numRecords - ((i + 1 : Nat) : Int)).toNat + 1 := by omega
      rw [hk, List.take_succ_cons] at hcols
      have hline : 30 ≤ line.length := hcols line (List.mem_cons_self _ _)
      obtain ⟨r, hr⟩ : ∃ r, lineToRecord fl line = some r :=
        ⟨_, lineToRecord_eq fl line hline⟩
      obtain ⟨recs, hrecs, hmap⟩ :=
        ih (i + 1) (records ++ [r]) (fun l hl => hcols l (List.mem_cons_of_mem _ hl))
      refine ⟨r :: recs, ?_, ?_⟩
      · unfold loadLoop
        rw [if_pos hi, hr]
        simp only [hrecs, List.append_assoc, List.singleton_append]
      · rw [hk, List.take_succ_cons, List.map_cons, List.map_cons, hmap, hr]
    · refine ⟨[], ?_, ?_⟩
      · unfold loadLoop
        rw [if_neg hi, List.append_nil]
      · have hk : (numRecords - (i : Int)).toNat = 0 := by omega
        rw [hk]; rfl

/-- The loading loop fails when one of the first `numRecords - i` lines has fewer than 30
columns. -/
theorem loadLoop_short (fl : FloatLib) (numRecords : Int) (lines : List (List String)) :
    ∀ (i : Nat) (records : List Record),
      (∃ l ∈ lines.take (numRecords - i).toNat, l.length < 30) →
      loadLoop fl numRecords i lines records = none := by
  induction lines with
  | nil =>
    intro i records h
    obtain ⟨l, hl, -⟩ := h
    simp at hl
  | cons line rest ih =>
    intro i records h
    obtain ⟨l, hl, hshort⟩ := h
    by_cases hi : (i : Int) < numRecords
    · have hk : (numRecords - (i : Int)).toNat =
          (numRecords - ((i + 1 : Nat) : Int)).toNat + 1 := by omega
      rw [hk, List.take_succ_cons] at hl
      unfold loadLoop
      rw [if_pos hi]
      rcases List.mem_cons.mp hl with hl | hl
      · rw [← hl, lineToRecord_short fl l hshort]
      · cases hline : lineToRecord fl line with
        | none => rfl
        | some r => exact ih (i + 1) (records ++ [r]) ⟨l, hl, hshort⟩
    · have hk : (numRecords - (i : Int)).toNat = 0 := by omega
      rw [hk] at hl
      simp at hl

theorem getAllCheeses_syncDb (records : List Record) (database : Database)
    (h : ∀ r ∈ records, storable r) :
    getAllCheeses (syncDb records database) = Except.ok records := by
  rw [syncDb_eq, getAllCheeses_mirrorRows records 1 h]

theorem getCheeseCount_mirrorRows (records : List Record) :
    getCheeseCount (mirrorRows 1 records) = (records.length : Int) := by
  simp only [getCheeseCount, sqlCount, List.foldl_cons, List.foldl_nil, mirrorRows_length]

theorem getCheeseCount_syncDb (records : List Record) (database : Database) :
    getCheeseCount (syncDb records database) = (records.length : Int) := by
  rw [syncDb_eq, getCheeseCount_mirrorRows]

/-- The lookup of an id in use reads the row stored for the record at that position. -/
theorem getCheeseByRecordId_syncDb (records : List Record) (database : Database) (k : Int)
    (r : Record) (h1 : 1 ≤ k) (hr : records.get? (k - 1).toNat = some r) :
    getCheeseByRecordId k (syncDb records database) = scanRow (bindRecord r) := by
  rw [getCheeseByRecordId, syncDb_eq, sqlSelectById_mirrorRows records 1 k r h1 hr]
  simp only [lookupLoop]
  cases scanRow (bindRecord r) <;> rfl

theorem readAll_filter (ls : List (List String)) :
    ReadAll ls =
      (match ls.filter (fun l => !l.isEmpty) with
        | [] => Except.ok []
        | first :: rest =>
          if rest.all (fun l => l.length == first.length) then Except.ok (first :: rest)
          else Except.error "wrong number of fields") := rfl

/-- What `ReadAll` returns has one width: every record has the width of the first. -/
theorem readAll_uniform (ls : List (List String)) (header : List String)
    (data : List (List String)) (h : ReadAll ls = Except.ok (header :: data)) :
    ∀ l ∈ data, l.length = header.length := by
  rw [readAll_filter] at h
  split at h
  · exact Except.noConfusion h (fun h2 => List.noConfusion h2)
  · next first rest _ =>
    split at h
    · next hall =>
      injection h with h
      injection h with h1 h2
      subst h1 h2
      intro l hl
      have := List.all_eq_true.mp hall l hl
      simpa using this
    · exact Except.noConfusion h

/-- Lines without a blank one and of one width are the records `ReadAll` returns. -/
theorem readAll_id (ls : List (List String)) (h1 : ∀ l ∈ ls, l ≠ [])
    (h2 : ∀ a ∈ ls, ∀ b ∈ ls, a.length = b.length) : ReadAll ls = Except.ok ls := by
  have hf : ls.filter (fun l => !l.isEmpty) = ls := by
    rw [List.filter_eq_self]
    intro l hl
    cases l with
    | nil => exact absurd rfl (h1 [] hl)
    | cons x xs => rfl
  rw [readAll_filter, hf]
  cases ls with
  | nil => rfl
  | cons first rest =>
    have hall : rest.all (fun l => l.length == first.length) = true := by
      rw [List.all_eq_true]
      intro l hl
      simpa using h2 l (List.mem_cons_of_mem _ hl) first (List.mem_cons_self _ _)
    simp only [hall, if_true]

/-- A file with two non-blank lines of different widths is rejected by `ReadAll`. -/
theorem readAll_ragged (ls : List (List String)) (a b : List String)
    (ha : a ∈ ls) (hb : b ∈ ls) (hane : a ≠ []) (hbne : b ≠ [])
    (hab : a.length ≠ b.length) : ∃ err, ReadAll ls = Except.error err := by
  have hfa : a ∈ ls.filter (fun l => !l.isEmpty) := by
    rw [List.mem_filter]
    refine ⟨ha, ?_⟩
    cases a with
    | nil => exact absurd rfl hane
    | cons x xs => rfl
  have hfb : b ∈ ls.filter (fun l => !l.isEmpty) := by
    rw [List.mem_filter]
    refine ⟨hb, ?_⟩
    cases b with
    | nil => exact absurd rfl hbne
    | cons x xs => rfl
  rw [readAll_filter]
  split
  · next hnil => rw [hnil] at hfa; exact absurd hfa (List.not_mem_nil _)
  · next first rest hcons =>
    rw [hcons] at hfa hfb
    split
    · next hall =>
      exfalso
      have hw : ∀ l ∈ first :: rest, l.length = first.length := by
        intro l hl
        rcases List.mem_cons.mp hl with h | h
        · rw [h]
        · have := List.all_eq_true.mp hall l h
          simpa using this
      exact hab ((hw a hfa).trans (hw b hfb).symm)
    · exact ⟨_, rfl⟩

/-- The load from a file that opens, written out: the reader's error is fatal, and the
records it returns are decoded by `loadData`. -/
theorem loadDataFrom_lines (fl : FloatLib) (ls : List (List String)) (numRecords : Int) :
    loadDataFrom fl (CsvSource.lines ls) numRecords =
      (match ReadAll ls with
        | Except.error _ => Except.error Abort.fatal
        | Except.ok records =>
          match loadData fl records numRecords with
          | none => Except.error Abort.panic
          | some rs => Except.ok rs) := by
  simp only [loadDataFrom, getLinesFromCSV, check, bind, Except.bind, pure, Except.pure]
  cases ReadAll ls with
  | error e => rfl
  | ok records =>
    simp only []
    cases loadData fl records numRecords <;> rfl

theorem displayAllLoop_get (l : List Record) :
    ∀ (i j : Nat) (r : Record), l.get? j = some r →
      (displayAllLoop i l).get? j = some (((i + j : Nat) : Int), r) := by
  induction l with
  | nil => intro i j r h; simp at h
  | cons a l ih =>
    intro i j r h
    cases j with
    | zero =>
      simp only [List.get?_cons_zero, Option.some.injEq] at h
      rw [displayAllLoop, h]
      rfl
    | succ j =>
      rw [List.get?_cons_succ] at h
      rw [displayAllLoop, List.get?_cons_succ, ih (i + 1) j r h]
      have : i + 1 + j = i + (j + 1) := by omega
      rw [this]

/-- One completed turn of the loop of `main` keeps the mirror at the rows stored for the
records of the store. -/
theorem mainStep_invariant (fl : FloatLib) (s s2 : AppState) (inp : StepInput)
    (hinv : s.database = mirrorRows 1 s.records)
    (h : mainStep fl s inp = StepResult.next s2) :
    s2.database = mirrorRows 1 s2.records := by
  unfold mainStep at h
  repeat' split at h
  all_goals first
    | exact StepResult.noConfusion h
    | (injection h with h
       subst h
       first
         | exact hinv
         | exact syncDb_eq _ _)

theorem mainRun_invariant (fl : FloatLib) (inputs : List StepInput) :
    ∀ s s2 : AppState, s.database = mirrorRows 1 s.records →
      mainRun fl s inputs = StepResult.next s2 → s2.database = mirrorRows 1 s2.records := by
  induction inputs with
  | nil =>
    intro s s2 hinv h
    rw [mainRun] at h
    injection h with h
    rw [← h]; exact hinv
  | cons inp rest ih =>
    intro s s2 hinv h
    rw [mainRun] at h
    cases hstep : mainStep fl s inp with
    | next s1 =>
      rw [hstep] at h
      exact ih s1 s2 (mainStep_invariant fl s s1 inp hinv hstep) h
    | stop => rw [hstep] at h; exact StepResult.noConfusion h
    | abort a => rw [hstep] at h; exact StepResult.noConfusion h
    | blocked => rw [hstep] at h; exact StepResult.noConfusion h

/-! ## Claims -/

/-- C1: on every line with at least 30 columns `lineToRecord` returns a record whose
string fields are the normalizer applied to the column pairs (1,2), (3,4), (6,7), (8,9),
(12,13), (14,15), (16,17), (18,19), (21,22), (23,24), (25,26), (27,28), and whose province
code is the normalizer applied to column 5 and the literal `"??"`; a blank column 5 gives
`"??"`, which is not `"N/A"`. -/
theorem lineToRecord_string_fields (fl : FloatLib) (line : List String)
    (h : 30 ≤ line.length) :
    ∃ r, lineToRecord fl line = some r ∧
      r.CheeseName = getFirstNonEmptyStringOrNA (col line 1) (col line 2) ∧
      r.ManufacturerName = getFirstNonEmptyStringOrNA (col line 3) (col line 4) ∧
      r.ManufacturingType = getFirstNonEmptyStringOrNA (col line 6) (col line 7) ∧
      r.WebSite = getFirstNonEmptyStringOrNA (col line 8) (col line 9) ∧
      r.Particularities = getFirstNonEmptyStringOrNA (col line 12) (col line 13) ∧
      r.Flavour = getFirstNonEmptyStringOrNA (col line 14) (col line 15) ∧
      r.Characteristics = getFirstNonEmptyStringOrNA (col line 16) (col line 17) ∧
      r.Ripening = getFirstNonEmptyStringOrNA (col line 18) (col line 19) ∧
      r.CategoryType = getFirstNonEmptyStringOrNA (col line 21) (col line 22) ∧
      r.MilkType = getFirstNonEmptyStringOrNA (col line 23) (col line 24) ∧
      r.MilkTreatmentType = getFirstNonEmptyStringOrNA (col line 25) (col line 26) ∧
      r.RindType = getFirstNonEmptyStringOrNA (col line 27) (col line 28) ∧
      r.ManufacturerProvCode = getFirstNonEmptyStringOrNA (col line 5) "??" ∧
      (TrimSpace (col line 5) = "" →
        r.ManufacturerProvCode = "??" ∧ r.ManufacturerProvCode ≠ "N/A") := by
  refine ⟨_, lineToRecord_eq fl line h, ?_⟩
  refine ⟨rfl, rfl, rfl, rfl, rfl, rfl, rfl, rfl, rfl, rfl, rfl, rfl, rfl, ?_⟩
  intro hb
  have hp : getFirstNonEmptyStringOrNA (col line 5) "??" = "??" := by
    unfold getFirstNonEmptyStringOrNA
    rw [if_neg (not_not.mpr hb), if_pos trimSpace_unknownProv]
  simp only [hp]
  exact ⟨trivial, by decide⟩

/-- Witness of C1: the golden line of `TestLoadData` has 30 columns and decodes to the
golden record. -/
theorem lineToRecord_string_fields_witness :
    30 ≤ goldenLine.length ∧
      ∃ r, lineToRecord goldenFloats goldenLine = some r ∧
        r.CheeseName = "Sieur de Duplessis (Le)" ∧ r.WebSite = "N/A" ∧
        r.ManufacturerProvCode = "NB" := by
  refine ⟨by decide, ?_⟩
  obtain ⟨r, hr, h1, -, -, h4, -, -, -, -, -, -, -, -, h13, -⟩ :=
    lineToRecord_string_fields goldenFloats goldenLine (by decide)
  refine ⟨r, hr, ?_, ?_, ?_⟩
  · rw [h1]; decide
  · rw [h4]; decide
  · rw [h13]; decide

/-- C2: on every line with at least 30 columns `lineToRecord` returns a record, whatever
the columns hold: `CheeseId` is 0 when column 0 is rejected by `ParseInt` (in particular
when it is not a base-10 integer literal), the percentages are 0 when columns 10 and 11
are rejected by `ParseFloat`, `Organic` is false when column 20 is rejected by `ParseBool`
(it is none of the twelve boolean tokens); and replacing the text of one of these four
columns changes the field parsed from it and no other field of the record. -/
theorem lineToRecord_parse_defaults (fl : FloatLib) (line : List String)
    (h : 30 ≤ line.length) :
    ∃ r, lineToRecord fl line = some r ∧
      (ParseInt (col line 0) = none → r.CheeseId = 0) ∧
      (isDecimalInteger (col line 0) = false → r.CheeseId = 0) ∧
      (fl.ParseFloat32 (col line 10) = none → r.FatContentPercent = Float32.zero) ∧
      (fl.ParseFloat32 (col line 11) = none → r.MoisturePercent = Float32.zero) ∧
      (ParseBool (col line 20) = none → r.Organic = false) ∧
      (col line 20 ∉ ["1", "t", "T", "true", "TRUE", "True", "0", "f", "F", "false", "FALSE",
          "False"] → r.Organic = false) ∧
      (∀ s, lineToRecord fl (line.set 0 s) =
        some { r with CheeseId := (ParseInt s).getD 0 }) ∧
      (∀ s, lineToRecord fl (line.set 10 s) =
        some { r with FatContentPercent := (fl.ParseFloat32 s).getD Float32.zero }) ∧
      (∀ s, lineToRecord fl (line.set 11 s) =
        some { r with MoisturePercent := (fl.ParseFloat32 s).getD Float32.zero }) ∧
      (∀ s, lineToRecord fl (line.set 20 s) =
        some { r with Organic := (ParseBool s).getD false }) := by
  refine ⟨_, lineToRecord_eq fl line h, ?_, ?_, ?_, ?_, ?_, ?_, ?_, ?_, ?_, ?_⟩
  · intro hp; simp only [hp, Option.getD_none]
  · intro hp; simp only [parseInt_not_decimal _ hp, Option.getD_none]
  · intro hp; simp only [hp, Option.getD_none]
  · intro hp; simp only [hp, Option.getD_none]
  · intro hp; simp only [hp, Option.getD_none]
  · intro hp; simp only [(parseBool_none_iff _).mpr hp, Option.getD_none]
  · intro s
    rw [lineToRecord_eq fl (line.set 0 s) (by simpa using h)]
    simp (disch := omega) only [col_set_ne, col_set_eq, ne_eq]
  · intro s
    rw [lineToRecord_eq fl (line.set 10 s) (by simpa using h)]
    simp (disch := omega) only [col_set_ne, col_set_eq, ne_eq]
  · intro s
    rw [lineToRecord_eq fl (line.set 11 s) (by simpa using h)]
    simp (disch := omega) only [col_set_ne, col_set_eq, ne_eq]
  · intro s
    rw [lineToRecord_eq fl (line.set 20 s) (by simpa using h)]
    simp (disch := omega) only [col_set_ne, col_set_eq, ne_eq]

/-- Witness of C2: the golden line with its four parsed columns replaced by texts that do
not parse decodes to the golden record with the four fields at their zero values. -/
theorem lineToRecord_parse_defaults_witness :
    30 ≤ goldenLine.length ∧
      lineToRecord goldenFloats
          ((((goldenLine.set 0 "12abc").set 10 "n/a").set 11 "").set 20 "yes") =
        some { goldenRecord with
          CheeseId := 0, FatContentPercent := Float32.zero,
          MoisturePercent := Float32.zero, Organic := false } ∧
      lineToRecord goldenFloats (goldenLine.set 0 "12abc") =
        some { goldenRecord with CheeseId := 0 } := by
  refine ⟨by decide, by decide, ?_⟩
  obtain ⟨r, hr, -, -, -, -, -, -, h0, -⟩ :=
    lineToRecord_parse_defaults goldenFloats goldenLine (by decide)
  have hg : r = goldenRecord := by
    have : lineToRecord goldenFloats goldenLine = some goldenRecord := by decide
    rw [this] at hr
    exact (Option.some.inj hr).symm
  rw [h0 "12abc", hg]
  decide

/-- C3 fails as stated: the normalizer returns its argument with the surrounding white
space, where the specification trims it. -/
theorem normalizer_keeps_whitespace :
    getFirstNonEmptyStringOrNA " a " "x" = " a " ∧ normalizeSpec " a " "x" = "a" ∧
      getFirstNonEmptyStringOrNA " a " "x" ≠ normalizeSpec " a " "x" := by
  decide

/-- C3, amended: `getFirstNonEmptyStringOrNA` returns `primary` itself (untrimmed) when it
is non-empty after trimming, else `secondary` itself (untrimmed) when that is non-empty
after trimming, else `"N/A"`; trimming the result gives the value the specification
states; and the two stated instances hold. -/
theorem normalizer_untrimmed (primary secondary : String) :
    getFirstNonEmptyStringOrNA primary secondary =
        (if TrimSpace primary ≠ "" then primary
         else if TrimSpace secondary ≠ "" then secondary else "N/A") ∧
      TrimSpace (getFirstNonEmptyStringOrNA primary secondary) =
        normalizeSpec primary secondary ∧
      getFirstNonEmptyStringOrNA "" "" = "N/A" ∧
      getFirstNonEmptyStringOrNA " " "x" = "x" := by
  refine ⟨rfl, ?_, by decide, by decide⟩
  unfold getFirstNonEmptyStringOrNA normalizeSpec
  by_cases h1 : TrimSpace primary ≠ ""
  · rw [if_pos h1, if_pos h1]
  · by_cases h2 : TrimSpace secondary ≠ ""
    · rw [if_neg h1, if_pos h2, if_neg h1, if_pos h2]
    · rw [if_neg h1, if_neg h2, if_neg h1, if_neg h2]; exact trimSpace_NA

/-- C4: `getFirstNonEmptyStringOrNA` is a total function that returns `first` itself when
`first` is non-blank, otherwise `second` itself when `second` is non-blank, otherwise
`"N/A"`; so its result is one of `first`, `second`, `"N/A"`, and it is never blank. -/
theorem normalizer_first_nonblank (first second : String) :
    ∃ res, getFirstNonEmptyStringOrNA first second = res ∧
      (TrimSpace first ≠ "" → res = first) ∧
      (TrimSpace first = "" → TrimSpace second ≠ "" → res = second) ∧
      (TrimSpace first = "" → TrimSpace second = "" → res = "N/A") ∧
      (res = first ∨ res = second ∨ res = "N/A") ∧
      TrimSpace res ≠ "" := by
  refine ⟨_, rfl, ?_, ?_, ?_, ?_, getFirstNonEmptyStringOrNA_nonblank first second⟩
  · intro h1; unfold getFirstNonEmptyStringOrNA; rw [if_pos h1]
  · intro h1 h2; unfold getFirstNonEmptyStringOrNA
    rw [if_neg (not_not.mpr h1), if_pos h2]
  · intro h1 h2; unfold getFirstNonEmptyStringOrNA
    rw [if_neg (not_not.mpr h1), if_neg (not_not.mpr h2)]
  · unfold getFirstNonEmptyStringOrNA
    split_ifs
    · exact Or.inl rfl
    · exact Or.inr (Or.inl rfl)
    · exact Or.inr (Or.inr rfl)

/-- C5 fails as stated: a line of 30 empty columns decodes to a record whose
`LastUpdateDate` is blank. -/
theorem lastUpdateDate_may_be_blank :
    ∃ r, lineToRecord goldenFloats (List.replicate 30 "") = some r ∧
      TrimSpace r.LastUpdateDate = "" := by
  decide

/-- C5, amended: on every line with at least 30 columns, each of the 13 string fields
that `lineToRecord` builds with the normalizer (all string fields except
`LastUpdateDate`) is non-blank; `LastUpdateDate` is non-blank exactly when column 29 is. -/
theorem lineToRecord_normalized_fields_nonblank (fl : FloatLib) (line : List String)
    (h : 30 ≤ line.length) :
    ∃ r, lineToRecord fl line = some r ∧
      TrimSpace r.CheeseName ≠ "" ∧
      TrimSpace r.ManufacturerName ≠ "" ∧
      TrimSpace r.ManufacturerProvCode ≠ "" ∧
      TrimSpace r.ManufacturingType ≠ "" ∧
      TrimSpace r.WebSite ≠ "" ∧
      TrimSpace r.Particularities ≠ "" ∧
      TrimSpace r.Flavour ≠ "" ∧
      TrimSpace r.Characteristics ≠ "" ∧
      TrimSpace r.Ripening ≠ "" ∧
      TrimSpace r.CategoryType ≠ "" ∧
      TrimSpace r.MilkType ≠ "" ∧
      TrimSpace r.MilkTreatmentType ≠ "" ∧
      TrimSpace r.RindType ≠ "" ∧
      (TrimSpace r.LastUpdateDate ≠ "" ↔ TrimSpace (col line 29) ≠ "") := by
  exact ⟨_, lineToRecord_eq fl line h, getFirstNonEmptyStringOrNA_nonblank _ _, getFirstNonEmptyStringOrNA_nonblank _ _, getFirstNonEmptyStringOrNA_nonblank _ _, getFirstNonEmptyStringOrNA_nonblank _ _, getFirstNonEmptyStringOrNA_nonblank _ _, getFirstNonEmptyStringOrNA_nonblank _ _, getFirstNonEmptyStringOrNA_nonblank _ _, getFirstNonEmptyStringOrNA_nonblank _ _, getFirstNonEmptyStringOrNA_nonblank _ _, getFirstNonEmptyStringOrNA_nonblank _ _, getFirstNonEmptyStringOrNA_nonblank _ _, getFirstNonEmptyStringOrNA_nonblank _ _, getFirstNonEmptyStringOrNA_nonblank _ _, Iff.rfl⟩

/-- Witness of C5 (amended): the line of 30 empty columns decodes to a record whose
normalized fields are `"N/A"` and `"??"`. -/
theorem lineToRecord_normalized_fields_nonblank_witness :
    30 ≤ (List.replicate 30 "").length ∧
      ∃ r, lineToRecord goldenFloats (List.replicate 30 "") = some r ∧
        TrimSpace r.CheeseName ≠ "" ∧ r.CheeseName = "N/A" ∧
        r.ManufacturerProvCode = "??" := by
  refine ⟨by decide, ?_⟩
  obtain ⟨r, hr, h1, -⟩ :=
    lineToRecord_normalized_fields_nonblank goldenFloats (List.replicate 30 "") (by decide)
  refine ⟨r, hr, h1, ?_⟩
  have hd : ∃ r2, lineToRecord goldenFloats (List.replicate 30 "") = some r2 ∧
      r2.CheeseName = "N/A" ∧ r2.ManufacturerProvCode = "??" := by decide
  obtain ⟨r2, hr2, h2⟩ := hd
  rw [hr] at hr2
  rw [Option.some.inj hr2]
  exact h2

/-- C6: on every line with at least 30 columns, the `LastUpdateDate` of the decoded record
is column 29 of the line, character for character: no trimming, no parsing, no
replacement of a blank or empty text by `"N/A"`. -/
theorem lineToRecord_lastUpdateDate (fl : FloatLib) (line : List String)
    (h : 30 ≤ line.length) :
    ∃ r, lineToRecord fl line = some r ∧ line.get? 29 = some r.LastUpdateDate := by
  exact ⟨_, lineToRecord_eq fl line h, get?_col line 29 (by omega)⟩

/-- Witness of C6: a column 29 with surrounding blanks, and an empty one, are kept. -/
theorem lineToRecord_lastUpdateDate_witness :
    30 ≤ (goldenLine.set 29 " 2016 ").length ∧
      (∃ r, lineToRecord goldenFloats (goldenLine.set 29 " 2016 ") = some r ∧
        r.LastUpdateDate = " 2016 ") ∧
      (∃ r, lineToRecord goldenFloats (goldenLine.set 29 "") = some r ∧
        r.LastUpdateDate = "") := by
  refine ⟨by decide, ?_, ?_⟩
  · obtain ⟨r, hr, h29⟩ :=
      lineToRecord_lastUpdateDate goldenFloats (goldenLine.set 29 " 2016 ") (by decide)
    refine ⟨r, hr, ?_⟩
    have : (goldenLine.set 29 " 2016 ").get? 29 = some " 2016 " := by decide
    rw [this] at h29
    exact (Option.some.inj h29).symm
  · obtain ⟨r, hr, h29⟩ :=
      lineToRecord_lastUpdateDate goldenFloats (goldenLine.set 29 "") (by decide)
    refine ⟨r, hr, ?_⟩
    have : (goldenLine.set 29 "").get? 29 = some "" := by decide
    rw [this] at h29
    exact (Option.some.inj h29).symm

/-- C7: for a header line followed by data lines of at least 30 columns each, and a
limit `≥ 0`, `loadData` returns exactly `min limit n` records, the `i`-th being
`lineToRecord` of the `i`-th data line, in file order; the header is never decoded. -/
theorem loadData_decodes_prefix (fl : FloatLib) (header : List String)
    (data : List (List String)) (limit : Int)
    (hcols : ∀ l ∈ data, 30 ≤ l.length) (hlimit : 0 ≤ limit) :
    ∃ recs, loadData fl (header :: data) limit = some recs ∧
      (recs.length : Int) = min limit (data.length : Int) ∧
      recs.map some = (data.take limit.toNat).map (lineToRecord fl) ∧
      (∀ i, i < recs.length →
        ∃ l r, data.get? i = some l ∧ recs.get? i = some r ∧ lineToRecord fl l = some r) := by
  obtain ⟨recs, hload, hmap⟩ := loadLoop_spec fl limit data 0 [] hcols
  have hk : (limit - ((0 : Nat) : Int)).toNat = limit.toNat := by
    simp only [Nat.cast_zero, sub_zero]
  rw [hk] at hmap
  have hlen : recs.length = min limit.toNat data.length := by
    have := congrArg List.length hmap
    simpa only [List.length_map, List.length_take] using this
  refine ⟨recs, ?_, by omega, hmap, ?_⟩
  · simpa only [loadData, List.nil_append] using hload
  · intro i hi
    have hi1 : i < limit.toNat := by omega
    have hi2 : i < data.length := by omega
    have hget := congrArg (fun xs => xs[i]?) hmap
    simp only [List.getElem?_map, List.getElem?_take_of_lt hi1,
      List.getElem?_eq_getElem hi, List.getElem?_eq_getElem hi2, Option.map_some'] at hget
    refine ⟨data[i], recs[i], ?_, ?_, ?_⟩
    · simp only [List.get?_eq_getElem?, List.getElem?_eq_getElem hi2]
    · simp only [List.get?_eq_getElem?, List.getElem?_eq_getElem hi]
    · exact (Option.some.inj hget).symm

/-- Witness of C7: a one-column header and two data lines loaded with limit 1 give the
decoding of the first data line only. -/
theorem loadData_decodes_prefix_witness :
    (∀ l ∈ [goldenLine, goldenLine.set 0 "229"], 30 ≤ l.length) ∧ (0 : Int) ≤ 1 ∧
      loadData goldenFloats [["header"], goldenLine, goldenLine.set 0 "229"] 1 =
        some [goldenRecord] ∧
      ∃ recs, loadData goldenFloats [["header"], goldenLine, goldenLine.set 0 "229"] 1 =
        some recs ∧ (recs.length : Int) = 1 := by
  refine ⟨by decide, by decide, by decide, ?_⟩
  obtain ⟨recs, hload, hlen, -, -⟩ :=
    loadData_decodes_prefix goldenFloats ["header"] [goldenLine, goldenLine.set 0 "229"] 1
      (by decide) (by decide)
  exact ⟨recs, hload, by rw [hlen]; decide⟩

/-- C8: for an index `0 ≤ id < len(slice)`, `deleteRecordFromSlice` returns a slice of
length `len(slice) - 1` that keeps the elements before `id` at their positions and moves
every later element down by one position, so that the remaining elements keep their
relative order; for `[A, B, C]` and index 1 the result is `[A, C]`. -/
theorem deleteRecordFromSlice_shifts (slice : List Record) (id : Int)
    (h0 : 0 ≤ id) (h1 : id < (slice.length : Int)) :
    ∃ res, deleteRecordFromSlice slice id = some res ∧
      deleteRecord slice id = some res ∧
      res.length = slice.length - 1 ∧
      (∀ j, j < id.toNat → res.get? j = slice.get? j) ∧
      (∀ j, id.toNat ≤ j → res.get? j = slice.get? (j + 1)) ∧
      res.Sublist slice ∧
      ∀ A B C : Record, deleteRecordFromSlice [A, B, C] 1 = some [A, C] := by
  have hdel : deleteRecordFromSlice slice id = some (slice.eraseIdx id.toNat) := by
    unfold deleteRecordFromSlice
    rw [if_pos ⟨h0, by omega⟩, List.eraseIdx_eq_take_drop_succ]
  refine ⟨slice.eraseIdx id.toNat, hdel, hdel, ?_, ?_, ?_, ?_, ?_⟩
  · rw [List.length_eraseIdx, if_pos (by omega)]
  · intro j hj
    simp only [List.get?_eq_getElem?, List.getElem?_eraseIdx_of_lt _ _ _ hj]
  · intro j hj
    simp only [List.get?_eq_getElem?, List.getElem?_eraseIdx_of_ge _ _ _ hj]
  · exact List.eraseIdx_sublist _ _
  · intro A B C
    rfl

/-- Witness of C8: deleting index 1 of a three-record store. -/
theorem deleteRecordFromSlice_shifts_witness :
    (0 : Int) ≤ 1 ∧
      (1 : Int) < (([goldenRecord, { goldenRecord with CheeseId := 1 },
        { goldenRecord with CheeseId := 2 }] : List Record).length : Int) ∧
      ∃ res, deleteRecordFromSlice [goldenRecord, { goldenRecord with CheeseId := 1 },
          { goldenRecord with CheeseId := 2 }] 1 = some res ∧
        res.length = 2 ∧ res.get? 0 = some goldenRecord ∧
        res.get? 1 = some { goldenRecord with CheeseId := 2 } := by
  refine ⟨by decide, by decide, ?_⟩
  obtain ⟨res, hres, -, hlen, hlt, hge, -, -⟩ :=
    deleteRecordFromSlice_shifts [goldenRecord, { goldenRecord with CheeseId := 1 },
      { goldenRecord with CheeseId := 2 }] 1 (by decide) (by decide)
  refine ⟨res, hres, hlen, ?_, ?_⟩
  · rw [hlt 0 (by decide)]; rfl
  · rw [hge 1 (by decide)]; rfl

/-- C9: for a valid index `0 ≤ id < len(records)`, `editRecord` returns a store of the
same length in which every element at an index other than `id` is the element of the
original store; only the element at index `id` is replaced, in place. -/
theorem editRecord_frame (fl : FloatLib) (records : List Record) (id : Int)
    (stdin : List String) (h0 : 0 ≤ id) (h1 : id < (records.length : Int)) :
    ∃ res rest, editRecord fl records id stdin = some (res, rest) ∧
      res.length = records.length ∧
      (∀ j, j ≠ id.toNat → res.get? j = records.get? j) ∧
      ∃ new, res.get? id.toNat = some new ∧ res = records.set id.toNat new := by
  have hlt : id.toNat < records.length := by omega
  have hr := editRecord_eq fl records id stdin records[id.toNat] h0
    (by simp only [List.get?_eq_getElem?, List.getElem?_eq_getElem hlt])
  refine ⟨_, _, hr, List.length_set _ _ _, ?_, _, ?_, rfl⟩
  · intro j hj
    simp only [List.get?_eq_getElem?, List.getElem?_set, if_neg (Ne.symm hj)]
  · simp only [List.get?_eq_getElem?, List.getElem?_set, hlt, if_true]

/-- Witness of C9: editing index 1 of a two-record store leaves index 0 as it was. -/
theorem editRecord_frame_witness :
    (0 : Int) ≤ 1 ∧
      (1 : Int) < (([goldenRecord, goldenRecord] : List Record).length : Int) ∧
      ∃ res rest, editRecord goldenFloats [goldenRecord, goldenRecord] 1
          ["7", "Cheddar"] = some (res, rest) ∧
        res.length = 2 ∧ res.get? 0 = some goldenRecord := by
  refine ⟨by decide, by decide, ?_⟩
  obtain ⟨res, rest, hres, hlen, hframe, -⟩ :=
    editRecord_frame goldenFloats [goldenRecord, goldenRecord] 1 ["7", "Cheddar"]
      (by decide) (by decide)
  exact ⟨res, rest, hres, hlen, by rw [hframe 0 (by decide)]; rfl⟩

/-- C10: `editRecord` keeps the fields whose prompt is answered with the empty line
(prompt number `k` reads line `k` of the console input): the edited record has the previous `CheeseId` (an `int`), the previous value of each of the
14 string fields and the previous `Organic`; a non-empty answer to the prompt of a string
field becomes the value of that field.  When all 18 prompts are answered with the empty
line, the record changes at most in its two percentages, which are re-read from their
two-decimal text. -/
theorem editRecord_keeps_unedited (fl : FloatLib) (records : List Record) (id : Int)
    (stdin : List String) (r : Record) (h0 : 0 ≤ id)
    (hr : records.get? id.toNat = some r) (hInt : isInt r.CheeseId) :
    ∃ new rest, editRecord fl records id stdin = some (records.set id.toNat new, rest) ∧
      (stdin.getD 0 "" = "" → new.CheeseId = r.CheeseId) ∧
      (stdin.getD 1 "" = "" → new.CheeseName = r.CheeseName) ∧
      (stdin.getD 1 "" ≠ "" → new.CheeseName = stdin.getD 1 "") ∧
      (stdin.getD 2 "" = "" → new.ManufacturerName = r.ManufacturerName) ∧
      (stdin.getD 2 "" ≠ "" → new.ManufacturerName = stdin.getD 2 "") ∧
      (stdin.getD 3 "" = "" → new.ManufacturerProvCode = r.ManufacturerProvCode) ∧
      (stdin.getD 3 "" ≠ "" → new.ManufacturerProvCode = stdin.getD 3 "") ∧
      (stdin.getD 4 "" = "" → new.ManufacturingType = r.ManufacturingType) ∧
      (stdin.getD 4 "" ≠ "" → new.ManufacturingType = stdin.getD 4 "") ∧
      (stdin.getD 5 "" = "" → new.WebSite = r.WebSite) ∧
      (stdin.getD 5 "" ≠ "" → new.WebSite = stdin.getD 5 "") ∧
      (stdin.getD 8 "" = "" → new.Particularities = r.Particularities) ∧
      (stdin.getD 8 "" ≠ "" → new.Particularities = stdin.getD 8 "") ∧
      (stdin.getD 9 "" = "" → new.Flavour = r.Flavour) ∧
      (stdin.getD 9 "" ≠ "" → new.Flavour = stdin.getD 9 "") ∧
      (stdin.getD 10 "" = "" → new.Characteristics = r.Characteristics) ∧
      (stdin.getD 10 "" ≠ "" → new.Characteristics = stdin.getD 10 "") ∧
      (stdin.getD 11 "" = "" → new.Ripening = r.Ripening) ∧
      (stdin.getD 11 "" ≠ "" → new.Ripening = stdin.getD 11 "") ∧
      (stdin.getD 13 "" = "" → new.CategoryType = r.CategoryType) ∧
      (stdin.getD 13 "" ≠ "" → new.CategoryType = stdin.getD 13 "") ∧
      (stdin.getD 14 "" = "" → new.MilkType = r.MilkType) ∧
      (stdin.getD 14 "" ≠ "" → new.MilkType = stdin.getD 14 "") ∧
      (stdin.getD 15 "" = "" → new.MilkTreatmentType = r.MilkTreatmentType) ∧
      (stdin.getD 15 "" ≠ "" → new.MilkTreatmentType = stdin.getD 15 "") ∧
      (stdin.getD 16 "" = "" → new.RindType = r.RindType) ∧
      (stdin.getD 16 "" ≠ "" → new.RindType = stdin.getD 16 "") ∧
      (stdin.getD 17 "" = "" → new.LastUpdateDate = r.LastUpdateDate) ∧
      (stdin.getD 17 "" ≠ "" → new.LastUpdateDate = stdin.getD 17 "") ∧
      (stdin.getD 12 "" = "" → new.Organic = r.Organic) ∧
      ((∀ k, k < 18 → stdin.getD k "" = "") →
        new = { r with
          FatContentPercent :=
            (fl.ParseFloat32 (fl.FormatFloat2 r.FatContentPercent)).getD Float32.zero
          MoisturePercent :=
            (fl.ParseFloat32 (fl.FormatFloat2 r.MoisturePercent)).getD Float32.zero }) := by
  refine ⟨_, _, editRecord_eq fl records id stdin r h0 hr, ?_, ?_, ?_, ?_, ?_, ?_, ?_, ?_, ?_, ?_, ?_, ?_, ?_, ?_, ?_, ?_, ?_, ?_, ?_, ?_, ?_, ?_, ?_, ?_, ?_, ?_, ?_, ?_, ?_, ?_, ?_⟩
  · intro h
    simp only [answerOr, h, if_true, parseInt_fmtInt _ hInt, Option.getD_some]
  · intro h; simp only [answerOr, h, if_true]
  · intro h; simp only [answerOr, h, if_false]
  · intro h; simp only [answerOr, h, if_true]
  · intro h; simp only [answerOr, h, if_false]
  · intro h; simp only [answerOr, h, if_true]
  · intro h; simp only [answerOr, h, if_false]
  · intro h; simp only [answerOr, h, if_true]
  · intro h; simp only [answerOr, h, if_false]
  · intro h; simp only [answerOr, h, if_true]
  · intro h; simp only [answerOr, h, if_false]
  · intro h; simp only [answerOr, h, if_true]
  · intro h; simp only [answerOr, h, if_false]
  · intro h; simp only [answerOr, h, if_true]
  · intro h; simp only [answerOr, h, if_false]
  · intro h; simp only [answerOr, h, if_true]
  · intro h; simp only [answerOr, h, if_false]
  · intro h; simp only [answerOr, h, if_true]
  · intro h; simp only [answerOr, h, if_false]
  · intro h; simp only [answerOr, h, if_true]
  · intro h; simp only [answerOr, h, if_false]
  · intro h; simp only [answerOr, h, if_true]
  · intro h; simp only [answerOr, h, if_false]
  · intro h; simp only [answerOr, h, if_true]
  · intro h; simp only [answerOr, h, if_false]
  · intro h; simp only [answerOr, h, if_true]
  · intro h; simp only [answerOr, h, if_false]
  · intro h; simp only [answerOr, h, if_true]
  · intro h; simp only [answerOr, h, if_false]
  · intro h
    simp only [answerOr, h, if_true, parseBool_fmtBool, Option.getD_some]
  · intro hall
    have e0 := hall 0 (by omega)
    have e1 := hall 1 (by omega)
    have e2 := hall 2 (by omega)
    have e3 := hall 3 (by omega)
    have e4 := hall 4 (by omega)
    have e5 := hall 5 (by omega)
    have e6 := hall 6 (by omega)
    have e7 := hall 7 (by omega)
    have e8 := hall 8 (by omega)
    have e9 := hall 9 (by omega)
    have e10 := hall 10 (by omega)
    have e11 := hall 11 (by omega)
    have e12 := hall 12 (by omega)
    have e13 := hall 13 (by omega)
    have e14 := hall 14 (by omega)
    have e15 := hall 15 (by omega)
    have e16 := hall 16 (by omega)
    have e17 := hall 17 (by omega)
    simp only [answerOr, e0, e1, e2, e3, e4, e5, e6, e7, e8, e9, e10, e11, e12, e13, e14, e15, e16, e17, if_true,
      parseInt_fmtInt _ hInt, parseBool_fmtBool, Option.getD_some]

/-- Witness of C10: the first prompt answered with the empty line and the second with a
new name, the input ending there. -/
theorem editRecord_keeps_unedited_witness :
    (0 : Int) ≤ 0 ∧ [goldenRecord].get? (0 : Int).toNat = some goldenRecord ∧
      isInt goldenRecord.CheeseId ∧
      ∃ new rest, editRecord goldenFloats [goldenRecord] 0 ["", "Cheddar"] =
          some ([goldenRecord].set 0 new, rest) ∧
        new.CheeseId = 228 ∧ new.CheeseName = "Cheddar" ∧
        new.LastUpdateDate = "2016-02-03" ∧ new.Organic = false := by
  refine ⟨by decide, by decide, by decide, ?_⟩
  obtain ⟨new, rest, hres, hid, -, hname, -, -, -, -, -, -, -, -, -, -, -, -, -, -, -, -, -, -, -, -, -, -, -, -, hdate, -, horg, -⟩ :=
    editRecord_keeps_unedited goldenFloats [goldenRecord] 0 ["", "Cheddar"] goldenRecord
      (by decide) (by decide) (by decide)
  refine ⟨new, rest, hres, ?_, ?_, ?_, ?_⟩
  · rw [hid (by decide)]; rfl
  · rw [hname (by decide)]; rfl
  · rw [hdate (by decide)]; rfl
  · rw [horg (by decide)]; rfl

/-- C11: for every store and every console input, `createRecord` returns a store of
length `len(records) + 1` whose first `len(records)` elements are the original records,
in the same order, and whose last element is the record built from the 18 answers. -/
theorem createRecord_appends (fl : FloatLib) (records : List Record) (stdin : List String) :
    ∃ r rest, createRecord fl records stdin = (records ++ [r], rest) ∧
      (createRecord fl records stdin).1.length = records.length + 1 ∧
      (createRecord fl records stdin).1.take records.length = records ∧
      (∀ i, i < records.length →
        (createRecord fl records stdin).1.get? i = records.get? i) ∧
      (createRecord fl records stdin).1.get? records.length = some r ∧
      (createRecord fl records stdin).1.getLast? = some r ∧
      r = {
      CheeseId := (ParseInt (answerOr stdin 0 "N/A")).getD 0
      CheeseName := answerOr stdin 1 "N/A"
      ManufacturerName := answerOr stdin 2 "N/A"
      ManufacturerProvCode := answerOr stdin 3 "N/A"
      ManufacturingType := answerOr stdin 4 "N/A"
      WebSite := answerOr stdin 5 "N/A"
      FatContentPercent := (fl.ParseFloat32 (answerOr stdin 6 "N/A")).getD Float32.zero
      MoisturePercent := (fl.ParseFloat32 (answerOr stdin 7 "N/A")).getD Float32.zero
      Particularities := answerOr stdin 8 "N/A"
      Flavour := answerOr stdin 9 "N/A"
      Characteristics := answerOr stdin 10 "N/A"
      Ripening := answerOr stdin 11 "N/A"
      Organic := (ParseBool (answerOr stdin 12 "N/A")).getD false
      CategoryType := answerOr stdin 13 "N/A"
      MilkType := answerOr stdin 14 "N/A"
      MilkTreatmentType := answerOr stdin 15 "N/A"
      RindType := answerOr stdin 16 "N/A"
      LastUpdateDate := answerOr stdin 17 "N/A" } := by
  refine ⟨_, _, createRecord_eq fl records stdin, ?_, ?_, ?_, ?_, ?_, rfl⟩
  · rw [createRecord_eq]; simp only [List.length_append, List.length_singleton]
  · rw [createRecord_eq]; simp only [List.take_left']
  · intro i hi
    rw [createRecord_eq]
    simp only [List.get?_eq_getElem?, List.getElem?_append_left hi]
  · rw [createRecord_eq]
    simp only [List.get?_eq_getElem?, List.getElem?_append_right (Nat.le_refl _),
      Nat.sub_self, List.getElem?_cons_zero]
  · rw [createRecord_eq]; simp only [List.getLast?_append, List.getLast?_singleton]; rfl

/-- C12: for every record, `recordToSlice` is a sequence of exactly 18 strings in the
declaration order of the fields: position 0 is the `%d` text of `CheeseId` (which
`ParseInt` reads back), positions 1-5, 8-11 and 13-17 are the 14 string fields as they
are, position 12 is `"true"` when `Organic` is true and `"false"` otherwise, and
positions 6 and 7 are the `%.2f` texts of the fat and moisture percentages. -/
theorem recordToSlice_layout (fl : FloatLib) (r : Record) :
    (recordToSlice fl r).length = 18 ∧
      (recordToSlice fl r).get? 0 = some (fmtInt r.CheeseId) ∧
      (isInt r.CheeseId → ((recordToSlice fl r).get? 0).bind ParseInt = some r.CheeseId) ∧
      (recordToSlice fl r).get? 1 = some r.CheeseName ∧
      (recordToSlice fl r).get? 2 = some r.ManufacturerName ∧
      (recordToSlice fl r).get? 3 = some r.ManufacturerProvCode ∧
      (recordToSlice fl r).get? 4 = some r.ManufacturingType ∧
      (recordToSlice fl r).get? 5 = some r.WebSite ∧
      (recordToSlice fl r).get? 8 = some r.Particularities ∧
      (recordToSlice fl r).get? 9 = some r.Flavour ∧
      (recordToSlice fl r).get? 10 = some r.Characteristics ∧
      (recordToSlice fl r).get? 11 = some r.Ripening ∧
      (recordToSlice fl r).get? 13 = some r.CategoryType ∧
      (recordToSlice fl r).get? 14 = some r.MilkType ∧
      (recordToSlice fl r).get? 15 = some r.MilkTreatmentType ∧
      (recordToSlice fl r).get? 16 = some r.RindType ∧
      (recordToSlice fl r).get? 17 = some r.LastUpdateDate ∧
      (recordToSlice fl r).get? 12 = some (if r.Organic then "true" else "false") ∧
      (recordToSlice fl r).get? 6 = some (fl.FormatFloat2 r.FatContentPercent) ∧
      (recordToSlice fl r).get? 7 = some (fl.FormatFloat2 r.MoisturePercent) := by
  refine ⟨rfl, rfl, ?_, rfl, rfl, rfl, rfl, rfl, rfl, rfl, rfl, rfl, rfl, rfl, rfl, rfl, rfl, rfl, rfl, rfl⟩
  intro h
  exact parseInt_fmtInt _ h

/-- C13 fails as stated: `recordToSlice` gives 18 columns and `lineToRecord` reads 30,
so that decoding the encoding of the golden record yields no record. -/
theorem lineToRecord_recordToSlice_fails :
    lineToRecord goldenFloats (recordToSlice goldenFloats goldenRecord) = none ∧
      ¬ ∃ r, lineToRecord goldenFloats (recordToSlice goldenFloats goldenRecord) = some r := by
  have h : lineToRecord goldenFloats (recordToSlice goldenFloats goldenRecord) = none := by
    decide
  refine ⟨h, ?_⟩
  rintro ⟨r, hr⟩
  rw [h] at hr
  exact Option.noConfusion hr

/-- C13, amended: for every record `r`, `recordToSlice r` has 18 columns, fewer than the
30 that `lineToRecord` reads, and decoding the encoding of `r` yields no record. -/
theorem lineToRecord_recordToSlice_none (fl : FloatLib) (r : Record) :
    (recordToSlice fl r).length = 18 ∧
      lineToRecord fl (recordToSlice fl r) = none ∧
      ¬ ∃ r2, lineToRecord fl (recordToSlice fl r) = some r2 := by
  have h : lineToRecord fl (recordToSlice fl r) = none := rfl
  refine ⟨rfl, h, ?_⟩
  rintro ⟨r2, hr2⟩
  rw [h] at hr2
  exact Option.noConfusion hr2

/-- C15 fails as stated for assignment 4, where `persistToFile` writes the records read
back from the mirror: for a store whose record has the fat percentage `-0.0`, the row
written is that of a record with the fat percentage `0.0` (column 6 is `0.00`, where the
row of the store's record has `-0.00`); and for a store whose record has a NaN percentage
the process ends in `getAllCheeses` and no row is written. -/
theorem persistToFile_rows_from_mirror :
    persistToFile goldenFloats (syncDb [negZeroRecord] []) none =
        Except.ok [headers, recordToSlice goldenFloats posZeroRecord] ∧
      recordToSlice goldenFloats posZeroRecord ≠ recordToSlice goldenFloats negZeroRecord ∧
      (recordToSlice goldenFloats negZeroRecord).get? 6 = some "-0.00" ∧
      (recordToSlice goldenFloats posZeroRecord).get? 6 = some "0.00" ∧
      persistToFile goldenFloats (syncDb [nanRecord] []) none = Except.error Abort.fatal := by
  decide

/-- C15, amended: for every list of records `rs` that `persistToFile` has to write, the
rows written are the header of the 18 field names of `Record` in declaration order, then
one row per record in order, the `i`-th being `recordToSlice` of the `i`-th record; every
row has 18 columns.  In assignment 3 the list is the store; in assignment 4 it is the
list that `getAllCheeses` reads from the mirror (when that read ends the process, nothing
is written), which after `syncDb` is the store when no percentage of the store is a NaN
or `-0.0`. -/
theorem persistToFile_rows (fl : FloatLib) (records : List Record) :
    persistRows fl records = headers :: records.map (recordToSlice fl) ∧
      headers =
        ["CheeseId", "CheeseName", "ManufacturerName", "ManufacturerProvCode",
         "ManufacturingType", "WebSite", "FatContentPercent", "MoisturePercent",
         "Particularities", "Flavour", "Characteristics", "Ripening", "Organic",
         "CategoryType", "MilkType", "MilkTreatmentType", "RindType", "LastUpdateDate"] ∧
      headers.length = 18 ∧
      (persistRows fl records).get? 0 = some headers ∧
      (∀ i, (persistRows fl records).get? (i + 1) =
        (records.get? i).map (recordToSlice fl)) ∧
      (persistRows fl records).length = records.length + 1 ∧
      (∀ row ∈ persistRows fl records, row.length = headers.length) ∧
      (∀ database : Database, getAllCheeses database = Except.ok records →
        persistToFile fl database none = Except.ok (persistRows fl records)) ∧
      (∀ (database : Database) (a : Abort) (createErr : Option String),
        getAllCheeses database = Except.error a →
        persistToFile fl database createErr = Except.error a) ∧
      ((∀ r ∈ records, storable r) → ∀ prior : Database,
        persistToFile fl (syncDb records prior) none =
          Except.ok (headers :: records.map (recordToSlice fl))) ∧
      persistToFile goldenFloats (syncDb [goldenRecord] []) none =
        Except.ok [headers, recordToSlice goldenFloats goldenRecord] := by
  have hrows : persistRows fl records = headers :: records.map (recordToSlice fl) := by
    rw [persistRows, writeLoop_eq]; rfl
  refine ⟨hrows, rfl, rfl, ?_, ?_, ?_, ?_, ?_, ?_, ?_, by decide⟩
  · rw [hrows]; rfl
  · intro i
    rw [hrows]
    simp only [List.get?_eq_getElem?, List.getElem?_cons_succ, List.getElem?_map]
  · rw [hrows]; simp only [List.length_cons, List.length_map]
  · intro row hrow
    rw [hrows] at hrow
    rcases List.mem_cons.mp hrow with h | h
    · rw [h]
    · obtain ⟨r, -, hr⟩ := List.mem_map.mp h
      rw [← hr]; rfl
  · intro database hdb
    simp only [persistToFile, hdb]
    rfl
  · intro database a createErr hdb
    simp only [persistToFile, hdb]
    rfl
  · intro hs prior
    rw [persistToFile, getAllCheeses_syncDb records prior hs, ← hrows]
    rfl

/-- C16 fails as stated: after `syncDb` of a store whose record has the fat percentage
`-0.0`, `getAllCheeses` returns a record with the fat percentage `0.0`, which is not the
record of the store; and after `syncDb` of a store whose record has a NaN percentage,
`getAllCheeses` ends the process and returns no list. -/
theorem getAllCheeses_syncDb_differs :
    getAllCheeses (syncDb [negZeroRecord] []) = Except.ok [posZeroRecord] ∧
      getAllCheeses (syncDb [negZeroRecord] []) ≠ Except.ok [negZeroRecord] ∧
      getAllCheeses (syncDb [nanRecord] []) = Except.error Abort.fatal := by
  decide

/-- C16, amended: `syncDb` is a full replace: whatever the table held, after `syncDb`
the table holds one row per record of the store, in store order under the ids 1, 2, ...,
with the values of the record as the engine stores them; its row count is `len(records)`
(`getCheeseCount`), it does not depend on the prior content, and a second `syncDb` of the
same store leaves it as it is; when no percentage of the store is a NaN or `-0.0`,
`getAllCheeses` returns the list of the records of the store. -/
theorem syncDb_full_replace (records : List Record) (database : Database) :
    ((∀ r ∈ records, storable r) →
        getAllCheeses (syncDb records database) = Except.ok records) ∧
      getCheeseCount (syncDb records database) = (records.length : Int) ∧
      (∀ other : Database, syncDb records other = syncDb records database) ∧
      syncDb records (syncDb records database) = syncDb records database ∧
      (syncDb records database).map (fun row => row.cols) = records.map bindRecord ∧
      (syncDb records database).map (fun row => row.id) =
        (List.range records.length).map (fun i : Nat => (i : Int) + 1) ∧
      syncDb records database = mirrorRows 1 records ∧
      getAllCheeses
          (syncDb [goldenRecord, { goldenRecord with CheeseId := 2 }]
            [{ id := 7, cols := bindRecord Record.zero }]) =
        Except.ok [goldenRecord, { goldenRecord with CheeseId := 2 }] := by
  refine ⟨fun hs => getAllCheeses_syncDb records database hs,
    getCheeseCount_syncDb records database, ?_, ?_, ?_, ?_, syncDb_eq records database,
    by decide⟩
  · intro other
    rw [syncDb_eq, syncDb_eq]
  · rw [syncDb_eq, syncDb_eq]
  · rw [syncDb_eq, mirrorRows_cols]
  · rw [syncDb_eq, mirrorRows_ids]

/-- C17 fails as stated: after `syncDb` of a store whose first record has the fat
percentage `-0.0`, the lookup of 1 returns a record with the fat percentage `0.0`, which
is not the record at index 0; and when the first record has a NaN percentage the lookup
ends the process. -/
theorem getCheeseByRecordId_negZero :
    getCheeseByRecordId 1 (syncDb [negZeroRecord] []) = Except.ok posZeroRecord ∧
      posZeroRecord ≠ negZeroRecord ∧
      [negZeroRecord].get? 0 = some negZeroRecord ∧
      getCheeseByRecordId 1 (syncDb [nanRecord] []) = Except.error Abort.fatal := by
  decide

/-- C17, amended: mirror positions are 1-based: after `syncDb`, for every `k` with
`1 ≤ k ≤ len(records)`, `getCheeseByRecordId k` reads the row stored for the record at
index `k - 1` of the store, and returns that record when neither of its percentages is a
NaN or `-0.0`; in particular the lookup of 1 in the mirror of a non-empty store is then
the record at index 0. -/
theorem getCheeseByRecordId_one_based (records : List Record) (database : Database)
    (k : Int) (h1 : 1 ≤ k) (h2 : k ≤ (records.length : Int)) :
    (∃ r, records.get? (k - 1).toNat = some r ∧
        getCheeseByRecordId k (syncDb records database) = scanRow (bindRecord r) ∧
        (storable r → getCheeseByRecordId k (syncDb records database) = Except.ok r)) ∧
      (∀ r0 rest, records = r0 :: rest → storable r0 →
        getCheeseByRecordId 1 (syncDb records database) = Except.ok r0) := by
  have hlt : (k - 1).toNat < records.length := by omega
  have hget : records.get? (k - 1).toNat = some records[(k - 1).toNat] := by
    simp only [List.get?_eq_getElem?, List.getElem?_eq_getElem hlt]
  refine ⟨⟨records[(k - 1).toNat], hget,
    getCheeseByRecordId_syncDb records database k _ h1 hget, ?_⟩, ?_⟩
  · intro hs
    rw [getCheeseByRecordId_syncDb records database k _ h1 hget, scanRow_bindRecord _ hs]
  · intro r0 rest hrec hs
    rw [getCheeseByRecordId_syncDb records database 1 r0 (by omega) (by rw [hrec]; rfl),
      scanRow_bindRecord _ hs]

/-- Witness of C17: in the mirror of a two-record store, the lookup of 2 is the record at
index 1 and the lookup of 1 the record at index 0. -/
theorem getCheeseByRecordId_one_based_witness :
    (1 : Int) ≤ 2 ∧
      (2 : Int) ≤
        (([goldenRecord, { goldenRecord with CheeseId := 2 }] : List Record).length : Int) ∧
      getCheeseByRecordId 2
          (syncDb [goldenRecord, { goldenRecord with CheeseId := 2 }]
            [{ id := 7, cols := bindRecord Record.zero }]) =
        Except.ok { goldenRecord with CheeseId := 2 } ∧
      getCheeseByRecordId 1
          (syncDb [goldenRecord, { goldenRecord with CheeseId := 2 }]
            [{ id := 7, cols := bindRecord Record.zero }]) =
        Except.ok goldenRecord := by
  obtain ⟨⟨r, hr, -, hget⟩, hfirst⟩ :=
    getCheeseByRecordId_one_based [goldenRecord, { goldenRecord with CheeseId := 2 }]
      [{ id := 7, cols := bindRecord Record.zero }] 2 (by decide) (by decide)
  have h2 : [goldenRecord, { goldenRecord with CheeseId := 2 }].get? ((2 : Int) - 1).toNat =
      some { goldenRecord with CheeseId := 2 } := by
    decide
  rw [h2] at hr
  have hr2 : r = { goldenRecord with CheeseId := 2 } := (Option.some.inj hr).symm
  subst hr2
  exact ⟨by decide, by decide, hget (by decide), hfirst _ _ rfl (by decide)⟩

/-- C18: the record-selection loop, over the sequence of console inputs, ends on the
first input that parses as an integer `id` with `0 ≤ id ≤ len(records) - 1`, every input
before it having failed to parse or being `< 0` or `> len(records) - 1`; so when the loop
ends the index is within bounds, `records[id]` exists and `deleteRecord` and `editRecord`
do not go out of range; for an empty store no input is accepted. -/
theorem selectRecordId_in_bounds (records : List Record) (inputs : List (Option Int)) :
    (∀ id rest, selectRecordId records.length inputs = some (id, rest) ↔
        ∃ pre, inputs = pre ++ some id :: rest ∧
          0 ≤ id ∧ id ≤ (records.length : Int) - 1 ∧
          ∀ x ∈ pre, ∀ i, x = some i → i < 0 ∨ i > (records.length : Int) - 1) ∧
      (∀ id rest, selectRecordId records.length inputs = some (id, rest) →
        0 ≤ id ∧ id.toNat < records.length ∧
        (∃ r, records.get? id.toNat = some r) ∧
        (∃ res, deleteRecord records id = some res) ∧
        ∀ (fl : FloatLib) (stdin : List String),
          ∃ out, editRecord fl records id stdin = some out) ∧
      (records = [] → selectRecordId records.length inputs = none) := by
  refine ⟨?_, ?_, ?_⟩
  · intro id rest
    constructor
    · exact selectRecordId_some _ inputs id rest
    · rintro ⟨pre, hpre, h0, h1, hrej⟩
      rw [hpre]
      exact selectRecordId_append _ id rest h0 h1 pre hrej
  · intro id rest h
    obtain ⟨pre, -, h0, h1, -⟩ := selectRecordId_some _ inputs id rest h
    have hlt : id.toNat < records.length := by omega
    have hget : records.get? id.toNat = some records[id.toNat] := by
      simp only [List.get?_eq_getElem?, List.getElem?_eq_getElem hlt]
    refine ⟨h0, hlt, ⟨_, hget⟩, ?_, ?_⟩
    · refine ⟨records.take id.toNat ++ records.drop (id.toNat + 1), ?_⟩
      rw [deleteRecord, deleteRecordFromSlice, if_pos ⟨h0, by omega⟩]
    · intro fl stdin
      exact ⟨_, editRecord_eq fl records id stdin _ h0 hget⟩
  · intro hnil
    cases hsel : selectRecordId records.length inputs with
    | none => rfl
    | some out =>
      obtain ⟨id, rest⟩ := out
      obtain ⟨pre, -, h0, h1, -⟩ := selectRecordId_some _ inputs id rest hsel
      rw [hnil] at h1
      simp only [List.length_nil, Nat.cast_zero] at h1
      omega

/-- C19: `showMenu`, over the sequence of console inputs, returns the first input that
parses as an integer `n` with `1 ≤ n ≤ 8`, every input before it having failed to parse
or being `< 1` or `> 8` (0 and the negative numbers among them); the value returned is
one of the eight pairwise distinct option constants, which are 1, ..., 8, and the
`switch` of `main` runs one case for it, different selections running different cases. -/
theorem showMenu_returns_option (inputs : List (Option Int)) :
    (∀ n rest, showMenu inputs = some (n, rest) ↔
        ∃ pre, inputs = pre ++ some n :: rest ∧ 1 ≤ n ∧ n ≤ 8 ∧
          ∀ x ∈ pre, ∀ i, x = some i → i < 1 ∨ i > 8) ∧
      (∀ n rest, showMenu inputs = some (n, rest) →
        n ∈ [OptionReload, OptionPersist, OptionDisplayAll, OptionCreate, OptionDisplay,
          OptionEdit, OptionDelete, OptionExit] ∧
        ∃ op, dispatch n = some op) ∧
      [OptionReload, OptionPersist, OptionDisplayAll, OptionCreate, OptionDisplay,
        OptionEdit, OptionDelete, OptionExit] = [1, 2, 3, 4, 5, 6, 7, 8] ∧
      [OptionReload, OptionPersist, OptionDisplayAll, OptionCreate, OptionDisplay,
        OptionEdit, OptionDelete, OptionExit].Nodup ∧
      (∀ m n op, dispatch m = some op → dispatch n = some op → m = n) ∧
      (∀ i, i ≤ 0 → showMenu (some i :: inputs) = showMenu inputs) := by
  refine ⟨?_, ?_, by decide, by decide, ?_, ?_⟩
  · intro n rest
    constructor
    · exact showMenu_some inputs n rest
    · rintro ⟨pre, hpre, h0, h1, hrej⟩
      rw [hpre]
      exact showMenu_append n rest h0 h1 pre hrej
  · intro n rest h
    obtain ⟨pre, -, h0, h1, -⟩ := showMenu_some inputs n rest h
    have hn : n = 1 ∨ n = 2 ∨ n = 3 ∨ n = 4 ∨ n = 5 ∨ n = 6 ∨ n = 7 ∨ n = 8 := by omega
    constructor
    · simp only [OptionReload, OptionPersist, OptionDisplayAll, OptionCreate, OptionDisplay,
        OptionEdit, OptionDelete, OptionExit, List.mem_cons, List.mem_singleton]
      omega
    · rcases hn with h | h | h | h | h | h | h | h <;> subst h <;> exact ⟨_, rfl⟩
  · intro m n op hm hn
    rw [dispatch_some m op hm, dispatch_some n op hn]
  · intro i hi
    rw [showMenu, if_pos (Or.inl (by simp only [OptionReload]; omega))]

/-- C20: when the CSV source cannot be opened, or cannot be parsed (a quoting error, or
records of unequal widths), `loadData` ends through `check` (`log.Fatal`) and yields no
records; it yields records only when the reader returns a list of lines, and then they
are the complete result of decoding these lines, never a partial list. -/
theorem loadDataFrom_fatal_on_error (fl : FloatLib) (numRecords : Int) :
    (∀ err, loadDataFrom fl (CsvSource.cannotOpen err) numRecords =
        Except.error Abort.fatal) ∧
      (∀ err, loadDataFrom fl (CsvSource.cannotParse err) numRecords =
        Except.error Abort.fatal) ∧
      (∀ ls err, ReadAll ls = Except.error err →
        loadDataFrom fl (CsvSource.lines ls) numRecords = Except.error Abort.fatal) ∧
      (∀ source records, loadDataFrom fl source numRecords = Except.ok records →
        ∃ ls lines, source = CsvSource.lines ls ∧ ReadAll ls = Except.ok lines ∧
          loadData fl lines numRecords = some records) ∧
      (∀ ls lines, ReadAll ls = Except.ok lines → loadData fl lines numRecords = none →
        loadDataFrom fl (CsvSource.lines ls) numRecords = Except.error Abort.panic) ∧
      (∀ ls lines records, ReadAll ls = Except.ok lines →
        loadData fl lines numRecords = some records →
        loadDataFrom fl (CsvSource.lines ls) numRecords = Except.ok records) ∧
      (∀ ls : List (List String), (∀ l ∈ ls, l ≠ []) →
        (∀ a ∈ ls, ∀ b ∈ ls, a.length = b.length) → ReadAll ls = Except.ok ls) := by
  refine ⟨fun _ => rfl, fun _ => rfl, ?_, ?_, ?_, ?_, fun ls h1 h2 => readAll_id ls h1 h2⟩
  · intro ls err h
    rw [loadDataFrom_lines, h]
  · intro source records h
    cases source with
    | cannotOpen err => exact Except.noConfusion h
    | cannotParse err => exact Except.noConfusion h
    | lines ls =>
      rw [loadDataFrom_lines] at h
      cases hr : ReadAll ls with
      | error e => rw [hr] at h; exact Except.noConfusion (h : Except.error Abort.fatal = _)
      | ok lines =>
        rw [hr] at h
        refine ⟨ls, lines, rfl, hr, ?_⟩
        cases hl : loadData fl lines numRecords with
        | none =>
          have h2 : (Except.error Abort.panic : Except Abort (List Record)) =
              Except.ok records := by
            simpa only [hl] using h
          exact Except.noConfusion h2
        | some recs =>
          have h2 : (Except.ok recs : Except Abort (List Record)) = Except.ok records := by
            simpa only [hl] using h
          rw [Except.ok.inj h2]
  · intro ls lines hr h
    rw [loadDataFrom_lines, hr]
    simp only [h]
  · intro ls lines records hr h
    rw [loadDataFrom_lines, hr]
    simp only [h]

/-- C21 fails as stated: an answer made of one blank is kept as it is, and the string
field of the created record is blank. -/
theorem createRecord_blank_answer :
    (createRecord goldenFloats [] ["1", " "]).1.map (fun r => r.CheeseName) = [" "] ∧
      (createRecord goldenFloats [] ["1", " "]).1.map (fun r => TrimSpace r.CheeseName) =
        [""] := by
  decide

/-- C21, amended: for every console input, each of the 14 string fields of the record
that `createRecord` builds is non-empty; it is blank exactly when its answer is a
non-empty line of white space only, which `readString` keeps as it is. -/
theorem createRecord_fields_nonempty (fl : FloatLib) (records : List Record)
    (stdin : List String) :
    ∃ r rest, createRecord fl records stdin = (records ++ [r], rest) ∧
      r.CheeseName ≠ "" ∧
      r.ManufacturerName ≠ "" ∧
      r.ManufacturerProvCode ≠ "" ∧
      r.ManufacturingType ≠ "" ∧
      r.WebSite ≠ "" ∧
      r.Particularities ≠ "" ∧
      r.Flavour ≠ "" ∧
      r.Characteristics ≠ "" ∧
      r.Ripening ≠ "" ∧
      r.CategoryType ≠ "" ∧
      r.MilkType ≠ "" ∧
      r.MilkTreatmentType ≠ "" ∧
      r.RindType ≠ "" ∧
      r.LastUpdateDate ≠ "" ∧
      (TrimSpace r.CheeseName = "" ↔
        stdin.getD 1 "" ≠ "" ∧ TrimSpace (stdin.getD 1 "") = "") ∧
      (TrimSpace r.ManufacturerName = "" ↔
        stdin.getD 2 "" ≠ "" ∧ TrimSpace (stdin.getD 2 "") = "") ∧
      (TrimSpace r.ManufacturerProvCode = "" ↔
        stdin.getD 3 "" ≠ "" ∧ TrimSpace (stdin.getD 3 "") = "") ∧
      (TrimSpace r.ManufacturingType = "" ↔
        stdin.getD 4 "" ≠ "" ∧ TrimSpace (stdin.getD 4 "") = "") ∧
      (TrimSpace r.WebSite = "" ↔
        stdin.getD 5 "" ≠ "" ∧ TrimSpace (stdin.getD 5 "") = "") ∧
      (TrimSpace r.Particularities = "" ↔
        stdin.getD 8 "" ≠ "" ∧ TrimSpace (stdin.getD 8 "") = "") ∧
      (TrimSpace r.Flavour = "" ↔
        stdin.getD 9 "" ≠ "" ∧ TrimSpace (stdin.getD 9 "") = "") ∧
      (TrimSpace r.Characteristics = "" ↔
        stdin.getD 10 "" ≠ "" ∧ TrimSpace (stdin.getD 10 "") = "") ∧
      (TrimSpace r.Ripening = "" ↔
        stdin.getD 11 "" ≠ "" ∧ TrimSpace (stdin.getD 11 "") = "") ∧
      (TrimSpace r.CategoryType = "" ↔
        stdin.getD 13 "" ≠ "" ∧ TrimSpace (stdin.getD 13 "") = "") ∧
      (TrimSpace r.MilkType = "" ↔
        stdin.getD 14 "" ≠ "" ∧ TrimSpace (stdin.getD 14 "") = "") ∧
      (TrimSpace r.MilkTreatmentType = "" ↔
        stdin.getD 15 "" ≠ "" ∧ TrimSpace (stdin.getD 15 "") = "") ∧
      (TrimSpace r.RindType = "" ↔
        stdin.getD 16 "" ≠ "" ∧ TrimSpace (stdin.getD 16 "") = "") ∧
      (TrimSpace r.LastUpdateDate = "" ↔
        stdin.getD 17 "" ≠ "" ∧ TrimSpace (stdin.getD 17 "") = "") := by
  refine ⟨_, _, createRecord_eq fl records stdin,
    answerOr_NA_ne_empty stdin 1, answerOr_NA_ne_empty stdin 2, answerOr_NA_ne_empty stdin 3, answerOr_NA_ne_empty stdin 4, answerOr_NA_ne_empty stdin 5, answerOr_NA_ne_empty stdin 8, answerOr_NA_ne_empty stdin 9, answerOr_NA_ne_empty stdin 10, answerOr_NA_ne_empty stdin 11, answerOr_NA_ne_empty stdin 13, answerOr_NA_ne_empty stdin 14, answerOr_NA_ne_empty stdin 15, answerOr_NA_ne_empty stdin 16, answerOr_NA_ne_empty stdin 17,
    trimSpace_answerOr_NA stdin 1, trimSpace_answerOr_NA stdin 2, trimSpace_answerOr_NA stdin 3, trimSpace_answerOr_NA stdin 4, trimSpace_answerOr_NA stdin 5, trimSpace_answerOr_NA stdin 8, trimSpace_answerOr_NA stdin 9, trimSpace_answerOr_NA stdin 10, trimSpace_answerOr_NA stdin 11, trimSpace_answerOr_NA stdin 13, trimSpace_answerOr_NA stdin 14, trimSpace_answerOr_NA stdin 15, trimSpace_answerOr_NA stdin 16, trimSpace_answerOr_NA stdin 17⟩

/-- C24: `createRecord` does not fail: every field of the created record is built from
the text its own prompt returns, an empty answer being read as `"N/A"`; an id,
percentage or boolean text that does not parse gives 0, 0 or false for its field; and
when all 18 answers are empty, the 14 string fields are `"N/A"` (the province code and
the date included), `CheeseId` is 0, the percentages are 0 and `Organic` is false
(`ParseFloat` rejecting the text `"N/A"`). -/
theorem createRecord_defaults (fl : FloatLib) (records : List Record) (stdin : List String)
    (hNA : fl.ParseFloat32 "N/A" = none) :
    ∃ r rest, createRecord fl records stdin = (records ++ [r], rest) ∧
      r = {
        CheeseId := (ParseInt (answerOr stdin 0 "N/A")).getD 0
        CheeseName := answerOr stdin 1 "N/A"
        ManufacturerName := answerOr stdin 2 "N/A"
        ManufacturerProvCode := answerOr stdin 3 "N/A"
        ManufacturingType := answerOr stdin 4 "N/A"
        WebSite := answerOr stdin 5 "N/A"
        FatContentPercent := (fl.ParseFloat32 (answerOr stdin 6 "N/A")).getD Float32.zero
        MoisturePercent := (fl.ParseFloat32 (answerOr stdin 7 "N/A")).getD Float32.zero
        Particularities := answerOr stdin 8 "N/A"
        Flavour := answerOr stdin 9 "N/A"
        Characteristics := answerOr stdin 10 "N/A"
        Ripening := answerOr stdin 11 "N/A"
        Organic := (ParseBool (answerOr stdin 12 "N/A")).getD false
        CategoryType := answerOr stdin 13 "N/A"
        MilkType := answerOr stdin 14 "N/A"
        MilkTreatmentType := answerOr stdin 15 "N/A"
        RindType := answerOr stdin 16 "N/A"
        LastUpdateDate := answerOr stdin 17 "N/A" } ∧
      (ParseInt (answerOr stdin 0 "N/A") = none → r.CheeseId = 0) ∧
      (fl.ParseFloat32 (answerOr stdin 6 "N/A") = none →
        r.FatContentPercent = Float32.zero) ∧
      (fl.ParseFloat32 (answerOr stdin 7 "N/A") = none →
        r.MoisturePercent = Float32.zero) ∧
      (ParseBool (answerOr stdin 12 "N/A") = none → r.Organic = false) ∧
      ((∀ k, k < 18 → stdin.getD k "" = "") →
        r = {
          CheeseId := 0
          CheeseName := "N/A"
          ManufacturerName := "N/A"
          ManufacturerProvCode := "N/A"
          ManufacturingType := "N/A"
          WebSite := "N/A"
          FatContentPercent := Float32.zero
          MoisturePercent := Float32.zero
          Particularities := "N/A"
          Flavour := "N/A"
          Characteristics := "N/A"
          Ripening := "N/A"
          Organic := false
          CategoryType := "N/A"
          MilkType := "N/A"
          MilkTreatmentType := "N/A"
          RindType := "N/A"
          LastUpdateDate := "N/A" }) := by
  refine ⟨_, _, createRecord_eq fl records stdin, rfl, ?_, ?_, ?_, ?_, ?_⟩
  · intro h; simp only [h, Option.getD_none]
  · intro h; simp only [h, Option.getD_none]
  · intro h; simp only [h, Option.getD_none]
  · intro h; simp only [h, Option.getD_none]
  · intro hall
    have e0 := hall 0 (by omega)
    have e1 := hall 1 (by omega)
    have e2 := hall 2 (by omega)
    have e3 := hall 3 (by omega)
    have e4 := hall 4 (by omega)
    have e5 := hall 5 (by omega)
    have e6 := hall 6 (by omega)
    have e7 := hall 7 (by omega)
    have e8 := hall 8 (by omega)
    have e9 := hall 9 (by omega)
    have e10 := hall 10 (by omega)
    have e11 := hall 11 (by omega)
    have e12 := hall 12 (by omega)
    have e13 := hall 13 (by omega)
    have e14 := hall 14 (by omega)
    have e15 := hall 15 (by omega)
    have e16 := hall 16 (by omega)
    have e17 := hall 17 (by omega)
    have hInt : ParseInt "N/A" = none := by decide
    have hBool : ParseBool "N/A" = none := by decide
    simp only [answerOr, e0, e1, e2, e3, e4, e5, e6, e7, e8, e9, e10, e11, e12, e13, e14, e15, e16, e17, if_true, hNA, hInt, hBool,
      Option.getD_none]

/-- Witness of C24: with no input at all, the record created in an empty store has all
its string fields at `"N/A"` and the other fields at their zero values. -/
theorem createRecord_defaults_witness :
    goldenFloats.ParseFloat32 "N/A" = none ∧
      ∃ r rest, createRecord goldenFloats [] [] = ([r], rest) ∧
        r.ManufacturerProvCode = "N/A" ∧ r.LastUpdateDate = "N/A" ∧ r.CheeseId = 0 ∧
        r.FatContentPercent = Float32.zero ∧ r.Organic = false := by
  refine ⟨by decide, ?_⟩
  obtain ⟨r, rest, hr, -, -, -, -, -, hall⟩ :=
    createRecord_defaults goldenFloats [] [] (by decide)
  have hr2 := hall (fun k _ => by cases k <;> rfl)
  refine ⟨r, rest, hr, ?_, ?_, ?_, ?_, ?_⟩ <;> rw [hr2]

/-- C25: on every line with at least 30 columns, `Organic` of the decoded record is true
if and only if column 20 is one of `"1"`, `"t"`, `"T"`, `"TRUE"`, `"true"`, `"True"`;
every other text gives false, among them `"false"`, the empty text, `"yes"` and a true
token with white space around it. -/
theorem lineToRecord_organic (fl : FloatLib) (line : List String)
    (h : 30 ≤ line.length) :
    ∃ r, lineToRecord fl line = some r ∧
      (r.Organic = true ↔ col line 20 ∈ ["1", "t", "T", "TRUE", "true", "True"]) ∧
      (col line 20 ∉ ["1", "t", "T", "TRUE", "true", "True"] → r.Organic = false) ∧
      (∀ s ∈ ["false", "", "yes", " true", "true ", " 1"],
        ∃ r2, lineToRecord fl (line.set 20 s) = some r2 ∧ r2.Organic = false) := by
  refine ⟨_, lineToRecord_eq fl line h, parseBool_getD_true_iff _, ?_, ?_⟩
  · intro hnot
    have := (parseBool_getD_true_iff (col line 20)).not.mpr hnot
    simpa only [Bool.not_eq_true] using this
  · intro s hs
    refine ⟨_, lineToRecord_eq fl (line.set 20 s) (by simpa using h), ?_⟩
    have hcol : col (line.set 20 s) 20 = s := col_set_eq line 20 s (by omega)
    simp only [hcol]
    simp only [List.mem_cons, List.mem_singleton, List.not_mem_nil, or_false] at hs
    rcases hs with hs | hs | hs | hs | hs | hs <;> rw [hs] <;> decide

/-- Witness of C25: the golden line with `"True"` in column 20 is organic, with `"yes"`
it is not. -/
theorem lineToRecord_organic_witness :
    30 ≤ (goldenLine.set 20 "True").length ∧
      (∃ r, lineToRecord goldenFloats (goldenLine.set 20 "True") = some r ∧
        r.Organic = true) ∧
      (∃ r, lineToRecord goldenFloats ((goldenLine.set 20 "True").set 20 "yes") = some r ∧
        r.Organic = false) := by
  obtain ⟨r, hr, hiff, -, hothers⟩ :=
    lineToRecord_organic goldenFloats (goldenLine.set 20 "True") (by decide)
  refine ⟨by decide, ⟨r, hr, hiff.mpr (by decide)⟩, hothers "yes" (by decide)⟩

/-- C26: `getCheeseByRecordId` does not signal a missing row: for every content of the
mirror and every `id` that matches no row, it returns the zero-valued `Record`
(`CheeseId` 0, all string fields empty, percentages 0, `Organic` false); after a
`syncDb` this is the case of every `id ≤ 0` and of every `id` greater than the number of
records. -/
theorem getCheeseByRecordId_missing_row (database : Database) (id : Int)
    (h : ∀ row ∈ database, row.id ≠ id) :
    getCheeseByRecordId id database = Except.ok Record.zero ∧
      Record.zero = {
        CheeseId := 0, CheeseName := "", ManufacturerName := "", ManufacturerProvCode := "",
        ManufacturingType := "", WebSite := "", FatContentPercent := Float32.zero,
        MoisturePercent := Float32.zero, Particularities := "", Flavour := "",
        Characteristics := "", Ripening := "", Organic := false, CategoryType := "",
        MilkType := "", MilkTreatmentType := "", RindType := "", LastUpdateDate := "" } ∧
      (∀ (records : List Record) (prior : Database) (k : Int),
        k ≤ 0 ∨ k > (records.length : Int) →
        getCheeseByRecordId k (syncDb records prior) = Except.ok Record.zero) := by
  refine ⟨getCheeseByRecordId_no_row database id h, rfl, ?_⟩
  intro records prior k hk
  apply getCheeseByRecordId_no_row
  intro row hrow
  rw [syncDb_eq] at hrow
  have h1 := mirrorRows_id_ge records 1 row hrow
  have h2 := mirrorRows_id_lt records 1 row hrow
  omega

/-- Witness of C26: in the mirror of a one-record store the ids 0 and 2 match no row. -/
theorem getCheeseByRecordId_missing_row_witness :
    (∀ row ∈ syncDb [goldenRecord] [], row.id ≠ 0) ∧
      getCheeseByRecordId 0 (syncDb [goldenRecord] []) = Except.ok Record.zero ∧
      getCheeseByRecordId 2 (syncDb [goldenRecord] []) = Except.ok Record.zero := by
  obtain ⟨h0, -, hsync⟩ :=
    getCheeseByRecordId_missing_row (syncDb [goldenRecord] []) 0 (by decide)
  exact ⟨by decide, h0, hsync [goldenRecord] [] 2 (Or.inr (by decide))⟩

/-- C22, the code at the failing input: in the mirror of a synchronized store the rows
carry the ids 1, 2, ..., and `displayRecord` looks up the accepted 0-based index as an
`id`: for index 0 of a non-empty store it shows the zero-valued record, for an index
`i ≥ 1` it shows the record read from the row of position `i - 1`, which is the record at
position `i - 1` when its percentages are plain, while `displayAllRecords` lists the
record at position `i` under `Record ID: i`. -/
theorem displayRecord_off_by_one (records : List Record) (prior : Database) :
    (∀ rest, records ≠ [] →
        displayRecord (syncDb records prior) (some 0 :: rest) =
          some (Except.ok Record.zero, rest)) ∧
      (∀ (i : Int) rest, 1 ≤ i → i ≤ (records.length : Int) - 1 →
        ∃ r, records.get? (i - 1).toNat = some r ∧
          displayRecord (syncDb records prior) (some i :: rest) =
            some (scanRow (bindRecord r), rest) ∧
          (storable r →
            displayRecord (syncDb records prior) (some i :: rest) =
              some (Except.ok r, rest))) ∧
      ((∀ r ∈ records, storable r) →
        ∃ shown, displayAllRecords (syncDb records prior) = Except.ok shown ∧
          ∀ (i : Nat) r, records.get? i = some r → shown.get? i = some ((i : Int), r)) ∧
      displayRecord (syncDb [goldenRecord, { goldenRecord with CheeseId := 2 }] [])
          [some 0] = some (Except.ok Record.zero, []) ∧
      displayRecord (syncDb [goldenRecord, { goldenRecord with CheeseId := 2 }] [])
          [some 1] = some (Except.ok goldenRecord, []) ∧
      displayAllRecords (syncDb [goldenRecord, { goldenRecord with CheeseId := 2 }] []) =
        Except.ok [(0, goldenRecord), (1, { goldenRecord with CheeseId := 2 })] := by
  refine ⟨?_, ?_, ?_, by decide, by decide, by decide⟩
  · intro rest hne
    have hlen : 0 < records.length := List.length_pos.mpr hne
    have hzero : getCheeseByRecordId 0 (syncDb records prior) = Except.ok Record.zero := by
      apply getCheeseByRecordId_no_row
      intro row hrow
      rw [syncDb_eq] at hrow
      have := mirrorRows_id_ge records 1 row hrow
      omega
    simp only [displayRecord, getCheeseCount_syncDb]
    rw [selectRecordId, if_neg (by omega)]
    simp only [hzero]
  · intro i rest h1 h2
    have hlt : (i - 1).toNat < records.length := by omega
    have hget : records.get? (i - 1).toNat = some records[(i - 1).toNat] := by
      simp only [List.get?_eq_getElem?, List.getElem?_eq_getElem hlt]
    have hshow : displayRecord (syncDb records prior) (some i :: rest) =
        some (scanRow (bindRecord records[(i - 1).toNat]), rest) := by
      simp only [displayRecord, getCheeseCount_syncDb]
      rw [selectRecordId, if_neg (by omega)]
      simp only [getCheeseByRecordId_syncDb records prior i _ h1 hget]
    refine ⟨_, hget, hshow, ?_⟩
    intro hs
    rw [hshow, scanRow_bindRecord _ hs]
  · intro hs
    refine ⟨displayAllLoop 0 records, ?_, ?_⟩
    · rw [displayAllRecords, getAllCheeses_syncDb records prior hs]
    · intro i r hr
      rw [displayAllLoop_get records 0 i r hr]
      simp only [Nat.zero_add]

/-- C23 fails as stated: started on a file whose only data line has the fat percentage
`-0`, `main` holds after the start-up `syncDb` a store whose record has the fat percentage
`-0.0`, while the rows of the mirror read in `id` order give a record with the fat
percentage `0.0`; the same holds after a completed display-all turn. -/
theorem main_mirror_differs :
    mainStart goldenFloats (CsvSource.lines [goldenHeader, goldenLine.set 10 "-0"]) [] =
        Except.ok { records := [negZeroRecord], database := syncDb [negZeroRecord] [] } ∧
      mainStep goldenFloats
          { records := [negZeroRecord], database := syncDb [negZeroRecord] [] }
          { menu := [some 3], ids := [], stdin := [],
            source := CsvSource.cannotOpen "", createErr := none } =
        StepResult.next { records := [negZeroRecord], database := syncDb [negZeroRecord] [] } ∧
      getAllCheeses (syncDb [negZeroRecord] []) = Except.ok [posZeroRecord] ∧
      getAllCheeses (syncDb [negZeroRecord] []) ≠ Except.ok [negZeroRecord] := by
  decide

/-- C23, amended: invariant of the loop of `main` over the pair of the in-memory store
and the mirror: after the start-up `syncDb`, and after every completed turn of the loop
(reload, persist, display-all, create, display-one, edit, delete), the mirror holds one
row per record of the store, in store order under the ids 1, 2, ..., with the values of
the record as the engine stores them; the rows read in `id` order are the records of the
store when no percentage of the store is a NaN or `-0.0`; in the edit turn the store that
`main` keeps is the edited one, and the mirror is synchronized to it. -/
theorem main_mirror_invariant (fl : FloatLib) :
    (∀ source prior s, mainStart fl source prior = Except.ok s →
        s.database = mirrorRows 1 s.records) ∧
      (∀ s inp s2, s.database = mirrorRows 1 s.records →
        mainStep fl s inp = StepResult.next s2 → s2.database = mirrorRows 1 s2.records) ∧
      (∀ source prior s0 inputs s, mainStart fl source prior = Except.ok s0 →
        mainRun fl s0 inputs = StepResult.next s → s.database = mirrorRows 1 s.records) ∧
      (∀ s : AppState, s.database = mirrorRows 1 s.records →
        (s.database.map (fun row => row.cols) = s.records.map bindRecord ∧
          s.database.map (fun row => row.id) =
            (List.range s.records.length).map (fun i : Nat => (i : Int) + 1) ∧
          getCheeseCount s.database = (s.records.length : Int) ∧
          ((∀ r ∈ s.records, storable r) → getAllCheeses s.database = Except.ok s.records))) ∧
      (∀ (s : AppState) (inp : StepInput) rest0 id rest,
        showMenu inp.menu = some (OptionEdit, rest0) →
        selectRecordId s.records.length inp.ids = some (id, rest) →
        ∃ records out, editRecord fl s.records id inp.stdin = some (records, out) ∧
          mainStep fl s inp =
            StepResult.next { records := records, database := syncDb records s.database } ∧
          syncDb records s.database = mirrorRows 1 records) ∧
      (∃ s0 s, mainStart goldenFloats (CsvSource.lines [goldenHeader, goldenLine])
            [{ id := 9, cols := bindRecord Record.zero }] = Except.ok s0 ∧
        mainRun goldenFloats s0
          [{ menu := [some 4], ids := [], stdin := ["7", "Cheddar"],
             source := CsvSource.cannotOpen "", createErr := none },
           { menu := [none, some 6], ids := [some 5, some 1], stdin := ["8"],
             source := CsvSource.cannotOpen "", createErr := none },
           { menu := [some 7], ids := [some 0], stdin := [],
             source := CsvSource.cannotOpen "", createErr := none },
           { menu := [some 5], ids := [some 0], stdin := [],
             source := CsvSource.cannotOpen "", createErr := none }] = StepResult.next s ∧
        s.records.map (fun r => (r.CheeseId, r.CheeseName)) = [(8, "Cheddar")] ∧
        getAllCheeses s.database = Except.ok s.records) := by
  have hstart : ∀ source prior s, mainStart fl source prior = Except.ok s →
      s.database = mirrorRows 1 s.records := by
    intro source prior s h
    unfold mainStart at h
    split at h
    · exact Except.noConfusion h
    · injection h with h
      subst h
      exact syncDb_eq _ _
  refine ⟨hstart, ?_, ?_, ?_, ?_, ?_⟩
  · intro s inp s2 hinv h
    exact mainStep_invariant fl s s2 inp hinv h
  · intro source prior s0 inputs s h0 hrun
    exact mainRun_invariant fl inputs s0 s (hstart source prior s0 h0) hrun
  · intro s hinv
    refine ⟨?_, ?_, ?_, ?_⟩
    · rw [hinv, mirrorRows_cols]
    · rw [hinv, mirrorRows_ids]
    · rw [hinv, getCheeseCount_mirrorRows]
    · intro hs
      rw [hinv, getAllCheeses_mirrorRows s.records 1 hs]
  · intro s inp rest0 id rest hmenu hsel
    obtain ⟨pre, -, h0, h1, -⟩ := selectRecordId_some _ inp.ids id rest hsel
    have hlt : id.toNat < s.records.length := by omega
    have hget : s.records.get? id.toNat = some s.records[id.toNat] := by
      simp only [List.get?_eq_getElem?, List.getElem?_eq_getElem hlt]
    have hedit := editRecord_eq fl s.records id inp.stdin _ h0 hget
    refine ⟨_, _, hedit, ?_, syncDb_eq _ _⟩
    have hd : dispatch OptionEdit = some Operation.edit := by decide
    simp only [mainStep, hmenu, hd, hsel, hedit]
  · refine ⟨_, _, rfl, rfl, by decide, by decide⟩

/-- C27 fails as stated in its last part: the file that `persistToFile` writes for an
empty store holds the header only, and `loadData` reloads it as the empty store. -/
theorem persisted_empty_store_reloads :
    persistRows goldenFloats [] = [headers] ∧
      loadData goldenFloats (persistRows goldenFloats []) NumRecordsToLoad = some [] := by
  decide

/-- C27, amended: `lineToRecord` is defined exactly on the lines with at least 30
columns: it returns a record for every such line, the columns beyond index 29 being
ignored, and fails on every line with fewer; so it fails on every 18-column row of
`recordToSlice` and on every row that `persistToFile` writes, and `loadData` with a
limit of at least 1 fails on the file written for a store of at least one record (the
header-only file of an empty store is reloaded as the empty store). -/
theorem lineToRecord_defined_iff (fl : FloatLib) :
    (∀ line, (∃ r, lineToRecord fl line = some r) ↔ 30 ≤ line.length) ∧
      (∀ line, line.length < 30 → lineToRecord fl line = none) ∧
      (∀ line extra, 30 ≤ line.length →
        lineToRecord fl (line ++ extra) = lineToRecord fl line) ∧
      (∀ r, lineToRecord fl (recordToSlice fl r) = none) ∧
      (∀ records, ∀ row ∈ persistRows fl records, lineToRecord fl row = none) ∧
      (∀ records limit, records ≠ [] → 1 ≤ limit →
        loadData fl (persistRows fl records) limit = none) ∧
      (∀ limit, loadData fl (persistRows fl []) limit = some []) := by
  have hrows : ∀ records, persistRows fl records = headers :: records.map (recordToSlice fl) := by
    intro records
    rw [persistRows, writeLoop_eq]; rfl
  refine ⟨?_, fun line h => lineToRecord_short fl line h,
    fun line extra h => lineToRecord_append fl line extra h, fun r => rfl, ?_, ?_, ?_⟩
  · intro line
    constructor
    · rintro ⟨r, hr⟩
      by_contra hlt
      rw [lineToRecord_short fl line (by omega)] at hr
      exact Option.noConfusion hr
    · intro h
      exact ⟨_, lineToRecord_eq fl line h⟩
  · intro records row hrow
    rw [hrows] at hrow
    rcases List.mem_cons.mp hrow with h | h
    · rw [h]; rfl
    · obtain ⟨r, -, hr⟩ := List.mem_map.mp h
      rw [← hr]; rfl
  · intro records limit hne hlimit
    cases records with
    | nil => exact absurd rfl hne
    | cons r rest =>
      rw [hrows, List.map_cons, loadData, loadLoop, if_pos (by omega)]
      rfl
  · intro limit
    rw [hrows]
    rfl

/-- C28 fails as stated: in a file whose header and first data line have 30 columns, a
line of one column after them makes `loadData` with the limit 1 fail, although the line
is beyond the limit: the CSV reader rejects the file for the unequal widths of its
records, and `check` ends the process; without that line the load returns one record. -/
theorem loadDataFrom_short_line_beyond_limit :
    loadDataFrom goldenFloats (CsvSource.lines [goldenHeader, goldenLine, ["short"]]) 1 =
        Except.error Abort.fatal ∧
      ReadAll [goldenHeader, goldenLine, ["short"]] =
        Except.error "wrong number of fields" ∧
      loadDataFrom goldenFloats (CsvSource.lines [goldenHeader, goldenLine]) 1 =
        Except.ok [goldenRecord] := by
  decide

/-- C28, amended: `loadData`, as a function of the lines that the CSV reader returns and
of the limit, fails on the empty list of lines, returns the empty list for a header alone
and for every limit `≤ 0`, and otherwise decodes the first `min limit n` data lines only:
it succeeds exactly when these have at least 30 columns.  The reader returns lines of one
width only, and a file with two records of different widths ends the load in `check`
whatever the limit; so a line shorter than 30 columns is never beyond the lines decoded
without the lines decoded being shorter too, and the load then fails for every limit
`≥ 1`. -/
theorem loadData_limit (fl : FloatLib) (header : List String) (data : List (List String))
    (limit : Int) :
    loadData fl [] limit = none ∧
      loadData fl [header] limit = some [] ∧
      (limit ≤ 0 → loadData fl (header :: data) limit = some []) ∧
      ((∀ l ∈ data.take limit.toNat, 30 ≤ l.length) →
        ∃ recs, loadData fl (header :: data) limit = some recs ∧
          recs.map some = (data.take limit.toNat).map (lineToRecord fl) ∧
          recs.length = min limit.toNat data.length) ∧
      ((∃ l ∈ data.take limit.toNat, l.length < 30) →
        loadData fl (header :: data) limit = none) ∧
      (∀ ls, ReadAll ls = Except.ok [] →
        loadDataFrom fl (CsvSource.lines ls) limit = Except.error Abort.panic) ∧
      (∀ ls, ReadAll ls = Except.ok (header :: data) →
        (∀ l ∈ data, l.length = header.length) ∧
        (∀ recs, loadData fl (header :: data) limit = some recs →
          loadDataFrom fl (CsvSource.lines ls) limit = Except.ok recs) ∧
        (loadData fl (header :: data) limit = none →
          loadDataFrom fl (CsvSource.lines ls) limit = Except.error Abort.panic) ∧
        ((∃ l ∈ data, l.length < 30) → 1 ≤ limit →
          loadDataFrom fl (CsvSource.lines ls) limit = Except.error Abort.panic)) ∧
      (∀ (ls : List (List String)) (a b : List String), a ∈ ls → b ∈ ls → a ≠ [] → b ≠ [] →
        a.length ≠ b.length →
        loadDataFrom fl (CsvSource.lines ls) limit = Except.error Abort.fatal) := by
  have hk : (limit - ((0 : Nat) : Int)).toNat = limit.toNat := by
    simp only [Nat.cast_zero, sub_zero]
  have hgood : ∀ lines : List (List String), (∀ l ∈ lines.take limit.toNat, 30 ≤ l.length) →
      ∃ recs, loadData fl (header :: lines) limit = some recs ∧
        recs.map some = (lines.take limit.toNat).map (lineToRecord fl) := by
    intro lines hcols
    obtain ⟨recs, hload, hmap⟩ := loadLoop_take fl limit lines 0 [] (by rw [hk]; exact hcols)
    rw [hk] at hmap
    exact ⟨recs, by simpa only [loadData, List.nil_append] using hload, hmap⟩
  have hshort : (∃ l ∈ data.take limit.toNat, l.length < 30) →
      loadData fl (header :: data) limit = none := by
    intro hs
    rw [loadData]
    exact loadLoop_short fl limit data 0 [] (by rw [hk]; exact hs)
  refine ⟨rfl, rfl, ?_, ?_, hshort, ?_, ?_, ?_⟩
  · intro hle
    cases data with
    | nil => rfl
    | cons line rest => rw [loadData, loadLoop, if_neg (by omega)]
  · intro hcols
    obtain ⟨recs, hload, hmap⟩ := hgood data hcols
    refine ⟨recs, hload, hmap, ?_⟩
    have := congrArg List.length hmap
    simpa only [List.length_map, List.length_take] using this
  · intro ls hr
    rw [loadDataFrom_lines, hr]
    rfl
  · intro ls hr
    have huni := readAll_uniform ls header data hr
    have hnone : loadData fl (header :: data) limit = none →
        loadDataFrom fl (CsvSource.lines ls) limit = Except.error Abort.panic := by
      intro h
      rw [loadDataFrom_lines, hr]
      simp only [h]
    refine ⟨huni, ?_, hnone, ?_⟩
    · intro recs h
      rw [loadDataFrom_lines, hr]
      simp only [h]
    · rintro ⟨l, hl, hlen⟩ hlimit
      apply hnone
      apply hshort
      cases data with
      | nil => exact absurd hl (List.not_mem_nil _)
      | cons d rest =>
        refine ⟨d, ?_, ?_⟩
        · have h1 : limit.toNat = (limit.toNat - 1) + 1 := by omega
          rw [h1, List.take_succ_cons]
          exact List.mem_cons_self _ _
        · rw [huni d (List.mem_cons_self _ _), ← huni l hl]
          exact hlen
  · intro ls a b ha hb hane hbne hab
    obtain ⟨err, herr⟩ := readAll_ragged ls a b ha hb hane hbne hab
    rw [loadDataFrom_lines, herr]

end CheeseDir
